import Mathlib

/-!
Verification of the electronic-contract signing core: document synthesis
(pdfService), the local record store (mockBackend), and the dashboard
export/grouping logic (AdminDashboard), shallowly embedded in Lean.

JavaScript runtime behaviour that the code relies on (string built-ins,
the clock, the base64 decoder, the PNG embedder of the pdf library) is
modelled explicitly: pure string built-ins are re-implemented on
character lists, and external effectful collaborators are passed in as
function parameters.
-/

/-! ## JS string built-ins, modelled on character lists -/

/-- Model of the JS string method s.includes at the list level:
does the first list start the second? -/
def strStarts : List Char → List Char → Bool
  | [], _ => true
  | _ :: _, [] => false
  | a :: as, b :: bs => a == b && strStarts as bs

/-- Does the first list occur contiguously inside the second?
Model of JS String.prototype.includes. -/
def subList (l1 : List Char) (l2 : List Char) : Bool :=
  match l2 with
  | [] => l1.isEmpty
  | _ :: bs => strStarts l1 l2 || subList l1 bs

/-- Model of JS s.includes(sub). -/
def jsIncludes (s sub : String) : Bool :=
  subList sub.data s.data

/-- Model of JS String.prototype.toLowerCase (ASCII-relevant part,
which is all the repository's inputs exercise). -/
def jsToLower (s : String) : String :=
  String.mk (s.data.map Char.toLower)

/-- Model of JS String.prototype.toUpperCase (ASCII-relevant part). -/
def jsToUpper (s : String) : String :=
  String.mk (s.data.map Char.toUpper)

/-- Split a character list at every occurrence of a separator character.
Model of JS s.split(sep) for a one-character separator. -/
def splitOnChar (sep : Char) : List Char → List (List Char)
  | [] => [[]]
  | c :: cs =>
    match splitOnChar sep cs with
    | [] => if c = sep then [[], []] else [[c]]
    | h :: t => if c = sep then [] :: h :: t else (c :: h) :: t

/-- Model of JS s.split(','). -/
def jsSplitComma (s : String) : List String :=
  (splitOnChar ',' s.data).map String.mk

/-- Model of JS s.slice(-4): the last four characters (the whole string
when it is shorter). -/
def jsSliceLast4 (s : String) : String :=
  String.mk (s.data.reverse.take 4).reverse

/-- Model of JS Array.prototype.join(sep). -/
def joinWith (sep : String) : List String → String
  | [] => ""
  | [x] => x
  | x :: y :: xs => x ++ sep ++ joinWith sep (y :: xs)

/-- Model of JS s.padStart(2, the zero character). -/
def padStart2 (s : String) : String :=
  String.mk (List.replicate (2 - s.length) '0') ++ s

/-! ## Data model (src/types.ts) -/

inductive TemplateType where
  | MEMBERSHIP | WAIVER | PT_AGREEMENT | OTHER
deriving DecidableEq, Repr

structure ContractTemplate where
  id : String
  name : String
  type : TemplateType
  createdAt : String
  basePdfUrl : Option String := none
  fileSize : Option String := none
  pageCount : Option Nat := none
deriving DecidableEq, Repr

structure SignerInfo where
  name : String
  phone : String
  email : String
  address : String
  dob : String
deriving DecidableEq, Repr

inductive ContractStatus where
  | COMPLETED | SENT
deriving DecidableEq, Repr

structure SignedContract where
  id : String
  templateId : String
  templateName : String
  signerName : String
  signerPhone : String
  signerEmail : String
  signedAt : String
  pdfDataUrl : String
  status : ContractStatus
deriving DecidableEq, Repr

/-! ## Document synthesis (src/services/pdfService.ts) -/

/-- The test performed by sanitizeForPdf: the regex matching strings made
exclusively of characters x00 to x7F. -/
def isAsciiText (s : String) : Bool :=
  s.data.all (fun c => decide (c.toNat ≤ 127))

/-- sanitizeForPdf from pdfService: keep an all-ASCII text, otherwise
substitute the fallback. -/
def sanitizeForPdf (text fallback : String) : String :=
  if isAsciiText text then text else fallback

/-- One drawn element of the synthesized page. -/
inductive PdfItem where
  | text (s : String)
  | image (bytes : List Nat)
deriving DecidableEq, Repr

/-- Modelled from the spec: the standard font used by the generator
supports only a basic-Latin repertoire, and passing text with an
unsupported character to the text-drawing step of the pdf library is a
fatal error that aborts synthesis. The supported repertoire is taken to
be the same ASCII range that sanitizeForPdf tests for. -/
def drawText (page : List PdfItem) (s : String) : Except String (List PdfItem) :=
  if isAsciiText s then .ok (page ++ [.text s]) else .error "WinAnsiEncode"

/-- The fallback marker drawn when the signature image cannot be
decoded or embedded. -/
def sigMarker : String := "(Signature Image Failed to Load)"

/-- The interpolated agreement body drawn by generateContractPDF (step 4
of the source), with the signer name and address already sanitized. -/
def bodyTextOf (signer : SignerInfo) : String :=
  "\n      This Agreement is entered into between "
    ++ sanitizeForPdf signer.name "Member"
    ++ " (\"Member\") and the Facility.\n      \n      1. TERMS OF SERVICE\n      The Member agrees to abide by all rules and regulations of the facility. The facility reserves the right\n      to terminate membership for violation of these rules.\n\n      2. LIABILITY WAIVER\n      I, the undersigned, acknowledge the risks involved in physical activity and hereby release the facility \n      from any liability for injuries sustained on the premises.\n\n      3. PAYMENT\n      The Member agrees to pay all fees associated with this membership.\n      \n      4. PERSONAL INFORMATION\n      Phone: "
    ++ signer.phone
    ++ "\n      Email: "
    ++ signer.email
    ++ "\n      DOB: "
    ++ signer.dob
    ++ "\n      Address: "
    ++ sanitizeForPdf signer.address "[Address on File]"
    ++ "\n      "

/-- generateContractPDF from pdfService. The page is modelled as the list
of drawn elements; serialization of the finished page to a base64 data
URL is treated as the identity on content. External collaborators are
parameters: dateStr is the JS toLocaleDateString rendering of the
generation date, atob is the browser base64 decoder (none models a
decoding exception), embedPng is the pdf library PNG embedder (none
models an embedding exception). -/
def generateContractPDF (dateStr : String) (atob : String → Option (List Nat))
    (embedPng : List Nat → Option (List Nat)) (template : ContractTemplate)
    (signer : SignerInfo) (signatureDataUrl : String) : Except String (List PdfItem) := do
  let displayTitle := sanitizeForPdf template.name "Electronic Contract Agreement"
  let page ← drawText [] (jsToUpper displayTitle)
  let page ← drawText page ("Date: " ++ dateStr)
  let bodyText := bodyTextOf signer
  let page ← drawText page bodyText
  if signatureDataUrl ≠ "" then
    let page ←
      match (jsSplitComma signatureDataUrl).get? 1 with
      | none => drawText page sigMarker
      | some base64Data =>
        match atob base64Data with
        | none => drawText page sigMarker
        | some signatureImageBytes =>
          match embedPng signatureImageBytes with
          | none => drawText page sigMarker
          | some signatureImage => .ok (page ++ [.image signatureImage])
    let page ← drawText page "Signed By:"
    let page ← drawText page (sanitizeForPdf signer.name "Member")
    return page
  else
    return page

/-! ## Record store (src/services/mockBackend.ts)

The two localStorage slots are modelled as optional decoded collections
(none models an absent key; JSON serialization of the records is exact
on these field types). The clock is explicit: now is the Date.now()
millisecond reading of an operation, and isoAt renders a millisecond
reading the way new Date(t).toISOString() does. localStorage.setItem can
throw when the quota is exhausted; whether a given write throws is
passed in as a boolean. The remote forward of a contract is an external
collaborator whose outcome is passed in as a RemoteOutcome. -/

structure Storage where
  templates : Option (List ContractTemplate)
  contracts : Option (List SignedContract)
deriving DecidableEq, Repr

/-- The draft accepted by uploadTemplate: a ContractTemplate without id
and createdAt. -/
structure TemplateDraft where
  name : String
  type : TemplateType
  basePdfUrl : Option String := none
  fileSize : Option String := none
  pageCount : Option Nat := none
deriving DecidableEq, Repr

/-- The draft accepted by saveSignedContract: a SignedContract without
id and status. -/
structure ContractDraft where
  templateId : String
  templateName : String
  signerName : String
  signerPhone : String
  signerEmail : String
  signedAt : String
  pdfDataUrl : String
deriving DecidableEq, Repr

/-- Outcome of the POST to the local backend endpoint: an ok response,
a non-ok response (with its body text), or a network-level failure. -/
inductive RemoteOutcome where
  | ok | httpError (body : String) | networkError
deriving DecidableEq, Repr

/-- Observable persistence events of one saveSignedContract run, in
program order. -/
inductive SaveEvent where
  | localSave (succeeded : Bool)
  | remoteAttempt (outcome : RemoteOutcome)
deriving DecidableEq, Repr

section Backend

variable (isoAt : Nat → String) (loadTime : Nat)

/-- The three seeded sample templates (module-level constant of
mockBackend; loadTime is the Date.now() reading at module load). -/
def DEFAULT_TEMPLATES : List ContractTemplate :=
  [ { id := "tpl_001", name := "프리미엄 멤버십 가입 신청서", type := .MEMBERSHIP,
      createdAt := isoAt loadTime, fileSize := some "1.2 MB", pageCount := some 3 },
    { id := "tpl_002", name := "시설 이용 및 면책 동의서", type := .WAIVER,
      createdAt := isoAt (loadTime - 86400000), fileSize := some "850 KB", pageCount := some 1 },
    { id := "tpl_003", name := "1:1 프라이빗 레슨 계약서", type := .PT_AGREEMENT,
      createdAt := isoAt (loadTime - 172800000), fileSize := some "1.5 MB", pageCount := some 2 } ]

/-- getTemplates: read the template slot, seeding and persisting the
default set on first-ever access. Returns the list together with the
possibly-updated storage. -/
def getTemplates (st : Storage) : List ContractTemplate × Storage :=
  match st.templates with
  | none => (DEFAULT_TEMPLATES isoAt loadTime,
             { st with templates := some (DEFAULT_TEMPLATES isoAt loadTime) })
  | some stored => (stored, st)

/-- The record uploadTemplate builds from its draft: fresh id from the
clock, creation timestamp, and the draft metadata with the falsy-value
fallbacks of the source applied. -/
def newTemplateOf (now : Nat) (template : TemplateDraft) : ContractTemplate :=
  { name := template.name, type := template.type, basePdfUrl := template.basePdfUrl,
    id := "tpl_" ++ Nat.repr now,
    createdAt := isoAt now,
    fileSize := some (match template.fileSize with
      | some s => if s = "" then "1.0 MB" else s
      | none => "1.0 MB"),
    pageCount := some (match template.pageCount with
      | some n => if n = 0 then 1 else n
      | none => 1) }

/-- uploadTemplate. fail1 states whether the first setItem throws
(quota), fail2 whether the retry without basePdfUrl throws. On the
double-failure path the exception propagates (.error) and the storage
keeps whatever getTemplates left. -/
def uploadTemplate (now : Nat) (template : TemplateDraft) (fail1 fail2 : Bool)
    (st : Storage) : Except Unit ContractTemplate × Storage :=
  let newTemplate : ContractTemplate := newTemplateOf isoAt now template
  let read := getTemplates isoAt loadTime st
  let current := read.1
  let st1 := read.2
  if fail1 = false then
    (.ok newTemplate, { st1 with templates := some (newTemplate :: current) })
  else
    let fallbackTemplate := { newTemplate with basePdfUrl := none }
    if fail2 = false then
      (.ok newTemplate, { st1 with templates := some (fallbackTemplate :: current) })
    else
      (.error (), st1)

/-- getSignedContracts: read the contract slot; an absent key reads as
the empty collection (no seeding, no write). -/
def getSignedContracts (st : Storage) : List SignedContract :=
  match st.contracts with
  | none => []
  | some stored => stored

/-- searchContracts from mockBackend. -/
def searchContracts (query : String) (st : Storage) : List SignedContract :=
  let contracts := getSignedContracts st
  let lowerQ := jsToLower query
  contracts.filter (fun c =>
    jsIncludes (jsToLower c.signerName) lowerQ
      || jsIncludes c.signerPhone query
      || jsIncludes (jsToLower c.templateName) lowerQ)

/-- The record saveSignedContract builds from its draft: the draft
fields plus a fresh id from the clock and initial status SENT. -/
def newContractOf (now : Nat) (contract : ContractDraft) : SignedContract :=
  { templateId := contract.templateId, templateName := contract.templateName,
    signerName := contract.signerName, signerPhone := contract.signerPhone,
    signerEmail := contract.signerEmail, signedAt := contract.signedAt,
    pdfDataUrl := contract.pdfDataUrl,
    id := "cnt_" ++ Nat.repr now, status := .SENT }

/-- saveSignedContract. failSave states whether the setItem throws (the
source does not guard this write); the remote forward is attempted only
after the local write and its outcome is swallowed. Returns the result,
the storage, and the persistence events in program order. -/
def saveSignedContract (now : Nat) (contract : ContractDraft) (failSave : Bool)
    (remote : RemoteOutcome) (st : Storage) :
    Except Unit SignedContract × Storage × List SaveEvent :=
  let newContract : SignedContract := newContractOf now contract
  let current := getSignedContracts st
  if failSave then
    (.error (), st, [.localSave false])
  else
    (.ok newContract,
     { st with contracts := some (newContract :: current) },
     [.localSave true, .remoteAttempt remote])

end Backend

/-! ## Dashboard export and grouping (src/pages/AdminDashboard.tsx) -/

/-- handleExportCSV: with no contracts the operation reports the
nothing-to-export condition instead of producing a file; otherwise it
builds the BOM-prefixed comma-separated table, every field quoted.
fmtDateTime is the JS new Date(s).toLocaleString() rendering. -/
def handleExportCSV (fmtDateTime : String → String)
    (contracts : List SignedContract) : Except Unit String :=
  if contracts.length = 0 then .error ()
  else
    let headers := ["Contract ID", "Template", "Signer Name", "Phone", "Email", "Signed Date"]
    let rows := contracts.map (fun c =>
      [c.id, c.templateName, c.signerName, c.signerPhone, c.signerEmail,
       fmtDateTime c.signedAt])
    let csvContent := joinWith "\n"
      (joinWith "," headers ::
        rows.map (fun row => joinWith "," (row.map (fun item => "\"" ++ item ++ "\""))))
    .ok (String.mk [Char.ofNat 65279] ++ csvContent)

/-- The loop body of handleDownloadZip: the archive entry (file name,
base64 payload) a contract contributes, none when its document payload
is absent or not extractable. -/
def zipEntryOf (contract : SignedContract) : Option (String × String) :=
  if contract.pdfDataUrl ≠ "" then
    match (jsSplitComma contract.pdfDataUrl).get? 1 with
    | some base64Data =>
      if base64Data ≠ "" then
        some (contract.signerName ++ "_" ++ contract.templateName ++ "_"
                ++ jsSliceLast4 contract.id ++ ".pdf", base64Data)
      else none
    | none => none
  else none

/-- handleDownloadZip: collect one archive entry per contract with an
extractable document payload, under the group folder; report the
nothing-to-export condition when no entry qualifies. An archive is
modelled as its folder name with the list of (file name, base64 payload)
entries. -/
def handleDownloadZip (groupKey : String) (groupContracts : List SignedContract) :
    Except Unit (String × List (String × String)) :=
  let folderName := "Contracts_" ++ groupKey
  let entries := groupContracts.filterMap zipEntryOf
  if entries.length = 0 then .error ()
  else .ok (folderName, entries)

/-- The year and month-index a JS Date exposes through getFullYear and
getMonth (month index 0 to 11) in the local display timezone. -/
structure LocalDate where
  year : Nat
  monthIdx : Nat
deriving DecidableEq, Repr

/-- The grouping key a LocalDate yields: year, dash, two-digit month. -/
def groupKeyOfDate (d : LocalDate) : String :=
  Nat.repr d.year ++ "-" ++ padStart2 (Nat.repr (d.monthIdx + 1))

/-- getGroupKey from AdminDashboard; getDate models the JS Date parse of
the stored timestamp into local display components. -/
def getGroupKey (getDate : String → LocalDate) (dateStr : String) : String :=
  groupKeyOfDate (getDate dateStr)

/-- Append a contract to its keyed group, creating the group at the end
on first occurrence (JS object keys of this shape keep insertion
order). -/
def pushGroup : List (String × List SignedContract) → String → SignedContract →
    List (String × List SignedContract)
  | [], k, c => [(k, [c])]
  | (k', l) :: rest, k, c =>
    if k' = k then (k', l ++ [c]) :: rest else (k', l) :: pushGroup rest k c

/-- The reduce of AdminDashboard building groupedContracts. -/
def groupedContracts (getDate : String → LocalDate) (contracts : List SignedContract) :
    List (String × List SignedContract) :=
  contracts.foldl (fun groups c => pushGroup groups (getGroupKey getDate c.signedAt) c) []

/-- Model of the default JS string comparison (code-unit lexicographic,
which on these keys is codepoint lexicographic): is the first list
strictly smaller? -/
def jsStrLtB : List Char → List Char → Bool
  | [], [] => false
  | [], _ :: _ => true
  | _ :: _, [] => false
  | a :: as, b :: bs => if a < b then true else if b < a then false else jsStrLtB as bs

/-- The comparison Array.prototype.sort of strings sorts ascending by. -/
def jsStrLe (s1 s2 : String) : Prop := jsStrLtB s2.data s1.data = false

instance : DecidableRel jsStrLe := fun _ _ =>
  inferInstanceAs (Decidable (_ = false))

/-- sortedGroupKeys from AdminDashboard: Object.keys of the groups,
sorted ascending by the default string comparison, reversed. -/
def sortedGroupKeys (getDate : String → LocalDate) (contracts : List SignedContract) :
    List String :=
  (List.insertionSort jsStrLe ((groupedContracts getDate contracts).map Prod.fst)).reverse

/-- Association lookup among the keyed groups. -/
def lookupG (k : String) : List (String × List SignedContract) → Option (List SignedContract)
  | [] => none
  | (k', l) :: rest => if k' = k then some l else lookupG k rest

/-! ## Decimal rendering: facts about Nat.repr, which the identifier and
group-key generation in the source rely on (template string
interpolation of a JS number) -/

theorem toDigitsCore_succ (fuel n : Nat) (ds : List Char) :
    Nat.toDigitsCore 10 (fuel + 1) n ds =
      if n / 10 = 0 then Nat.digitChar (n % 10) :: ds
      else Nat.toDigitsCore 10 fuel (n / 10) (Nat.digitChar (n % 10) :: ds) := rfl

theorem toDigitsCore_fuel (fuel1 : Nat) : ∀ (fuel2 n : Nat) (ds : List Char),
    n < fuel1 → n < fuel2 →
    Nat.toDigitsCore 10 fuel1 n ds = Nat.toDigitsCore 10 fuel2 n ds := by
  induction fuel1 with
  | zero => intro fuel2 n ds h1 _; omega
  | succ f ih =>
    intro fuel2 n ds h1 h2
    cases fuel2 with
    | zero => omega
    | succ f2 =>
      rw [toDigitsCore_succ, toDigitsCore_succ]
      by_cases h : n / 10 = 0
      · simp [h]
      · rw [if_neg h, if_neg h]
        exact ih f2 (n / 10) _ (by omega) (by omega)

theorem toDigitsCore_acc (fuel : Nat) : ∀ (n : Nat) (ds : List Char), n < fuel →
    Nat.toDigitsCore 10 fuel n ds = Nat.toDigitsCore 10 fuel n [] ++ ds := by
  induction fuel with
  | zero => intro n ds h; omega
  | succ f ih =>
    intro n ds h
    rw [toDigitsCore_succ, toDigitsCore_succ]
    by_cases h0 : n / 10 = 0
    · simp [h0]
    · rw [if_neg h0, if_neg h0, ih (n / 10) _ (by omega),
        ih (n / 10) [Nat.digitChar (n % 10)] (by omega), List.append_assoc]
      rfl

theorem toDigits_def (n : Nat) :
    Nat.toDigits 10 n =
      if n < 10 then [Nat.digitChar n]
      else Nat.toDigits 10 (n / 10) ++ [Nat.digitChar (n % 10)] := by
  show Nat.toDigitsCore 10 (n + 1) n [] = _
  rw [toDigitsCore_succ]
  by_cases h : n < 10
  · have h0 : n / 10 = 0 := by omega
    have hm : n % 10 = n := by omega
    simp [h, h0, hm]
  · have h0 : ¬ n / 10 = 0 := by omega
    simp only [h0, if_neg, h, if_false]
    rw [toDigitsCore_acc n (n / 10) _ (by omega)]
    show _ ++ _ = Nat.toDigitsCore 10 (n / 10 + 1) (n / 10) [] ++ _
    rw [toDigitsCore_fuel n (n / 10 + 1) (n / 10) [] (by omega) (by omega)]

theorem digitChar_toNat : ∀ d : Nat, d ≤ 9 → (Nat.digitChar d).toNat = d + 48 := by decide

/-- The numeric value of a decimal digit string. -/
def digitsVal (l : List Char) : Nat :=
  l.foldl (fun a c => 10 * a + (c.toNat - 48)) 0

theorem digitsVal_toDigits (n : Nat) : digitsVal (Nat.toDigits 10 n) = n := by
  induction n using Nat.strong_induction_on with
  | _ n ih =>
    rw [toDigits_def]
    by_cases h : n < 10
    · simp only [h, if_true]
      show 10 * 0 + ((Nat.digitChar n).toNat - 48) = n
      rw [digitChar_toNat n (by omega)]
      omega
    · simp only [h, if_false]
      show (Nat.toDigits 10 (n / 10) ++ [Nat.digitChar (n % 10)]).foldl _ 0 = n
      rw [List.foldl_append]
      show 10 * digitsVal (Nat.toDigits 10 (n / 10)) + ((Nat.digitChar (n % 10)).toNat - 48) = n
      rw [ih (n / 10) (by omega), digitChar_toNat (n % 10) (by omega)]
      omega

theorem repr_data (n : Nat) : (Nat.repr n).data = Nat.toDigits 10 n := rfl

theorem repr_injective {m n : Nat} (h : Nat.repr m = Nat.repr n) : m = n := by
  have hd : Nat.toDigits 10 m = Nat.toDigits 10 n := by
    rw [← repr_data, ← repr_data, h]
  have := digitsVal_toDigits m
  rw [hd, digitsVal_toDigits] at this
  omega

theorem toDigits_ne_nil (n : Nat) : Nat.toDigits 10 n ≠ [] := by
  rw [toDigits_def]
  by_cases h : n < 10 <;> simp [h]

theorem toDigits_head (n : Nat) (h : 1 ≤ n) :
    ∃ d, 1 ≤ d ∧ d ≤ 9 ∧ (Nat.toDigits 10 n).head? = some (Nat.digitChar d) := by
  induction n using Nat.strong_induction_on with
  | _ n ih =>
    rw [toDigits_def]
    by_cases hlt : n < 10
    · exact ⟨n, h, by omega, by simp [hlt]⟩
    · obtain ⟨d, hd1, hd9, hd⟩ := ih (n / 10) (by omega) (by omega)
      refine ⟨d, hd1, hd9, ?_⟩
      rcases hh : Nat.toDigits 10 (n / 10) with _ | ⟨a, t⟩
      · exact absurd hh (toDigits_ne_nil _)
      · rw [hh] at hd
        simp at hd
        simp [hlt, hh, hd]

theorem toDigits_four (y : Nat) (h1 : 1000 ≤ y) (h2 : y ≤ 9999) :
    Nat.toDigits 10 y =
      [Nat.digitChar (y / 1000), Nat.digitChar (y / 100 % 10),
       Nat.digitChar (y / 10 % 10), Nat.digitChar (y % 10)] := by
  have e1 : y / 10 / 10 = y / 100 := by omega
  have e2 : y / 100 / 10 = y / 1000 := by omega
  rw [toDigits_def y, if_neg (by omega), toDigits_def (y / 10), if_neg (by omega),
    toDigits_def (y / 10 / 10), e1, if_neg (by omega), toDigits_def (y / 100 / 10), e2,
    if_pos (by omega)]
  simp

theorem padMonth (m : Nat) (h : m ≤ 11) :
    (padStart2 (Nat.repr (m + 1))).data =
      [Nat.digitChar ((m + 1) / 10), Nat.digitChar ((m + 1) % 10)] := by
  interval_cases m <;> rfl

theorem data_append (s t : String) : (s ++ t).data = s.data ++ t.data := rfl

theorem groupKey_data (d : LocalDate) (hy1 : 1000 ≤ d.year) (hy2 : d.year ≤ 9999)
    (hm : d.monthIdx ≤ 11) :
    (groupKeyOfDate d).data =
      [Nat.digitChar (d.year / 1000), Nat.digitChar (d.year / 100 % 10),
       Nat.digitChar (d.year / 10 % 10), Nat.digitChar (d.year % 10), '-',
       Nat.digitChar ((d.monthIdx + 1) / 10), Nat.digitChar ((d.monthIdx + 1) % 10)] := by
  show (Nat.repr d.year ++ "-" ++ padStart2 (Nat.repr (d.monthIdx + 1))).data = _
  rw [data_append, data_append, repr_data, toDigits_four d.year hy1 hy2, padMonth d.monthIdx hm]
  rfl

theorem digitChar_lt_iff :
    ∀ d : Nat, d ≤ 9 → ∀ e : Nat, e ≤ 9 →
      ((Nat.digitChar d < Nat.digitChar e) ↔ d < e) := by decide

theorem digitChar_eq_iff :
    ∀ d : Nat, d ≤ 9 → ∀ e : Nat, e ≤ 9 →
      ((Nat.digitChar d = Nat.digitChar e) ↔ d = e) := by decide

theorem jsStrLtB_dc_cons (a b : Nat) (ha : a ≤ 9) (hb : b ≤ 9) (as bs : List Char) :
    jsStrLtB (Nat.digitChar a :: as) (Nat.digitChar b :: bs) =
      if a < b then true else if b < a then false else jsStrLtB as bs := by
  show (if Nat.digitChar a < Nat.digitChar b then true
        else if Nat.digitChar b < Nat.digitChar a then false else jsStrLtB as bs) = _
  by_cases h1 : a < b
  · rw [if_pos ((digitChar_lt_iff a ha b hb).mpr h1), if_pos h1]
  · rw [if_neg (fun hc => h1 ((digitChar_lt_iff a ha b hb).mp hc)), if_neg h1]
    by_cases h2 : b < a
    · rw [if_pos ((digitChar_lt_iff b hb a ha).mpr h2), if_pos h2]
    · rw [if_neg (fun hc => h2 ((digitChar_lt_iff b hb a ha).mp hc)), if_neg h2]

theorem jsStrLtB_same_cons (c : Char) (as bs : List Char) :
    jsStrLtB (c :: as) (c :: bs) = jsStrLtB as bs := by
  show (if c < c then true else if c < c then false else jsStrLtB as bs) = _
  rw [if_neg (lt_irrefl c), if_neg (lt_irrefl c)]

/-- The JS string comparison of two rendered year-month keys agrees with
the chronological comparison of their periods, for four-digit years. -/
theorem jsStrLtB_key_iff (d1 d2 : LocalDate)
    (hy1 : 1000 ≤ d1.year) (hy2 : d1.year ≤ 9999) (hm1 : d1.monthIdx ≤ 11)
    (hy1' : 1000 ≤ d2.year) (hy2' : d2.year ≤ 9999) (hm2 : d2.monthIdx ≤ 11) :
    (jsStrLtB (groupKeyOfDate d1).data (groupKeyOfDate d2).data = true) ↔
      (d1.year < d2.year ∨ (d1.year = d2.year ∧ d1.monthIdx < d2.monthIdx)) := by
  rw [groupKey_data d1 hy1 hy2 hm1, groupKey_data d2 hy1' hy2' hm2]
  rw [jsStrLtB_dc_cons _ _ (by omega) (by omega),
    jsStrLtB_dc_cons _ _ (by omega) (by omega),
    jsStrLtB_dc_cons _ _ (by omega) (by omega),
    jsStrLtB_dc_cons _ _ (by omega) (by omega)]
  by_cases e3 : d1.year / 1000 < d2.year / 1000
  · rw [if_pos e3]; constructor
    · intro _; omega
    · intro _; rfl
  · rw [if_neg e3]
    by_cases f3 : d2.year / 1000 < d1.year / 1000
    · rw [if_pos f3]; constructor
      · intro h; cases h
      · intro h; omega
    · rw [if_neg f3]
      by_cases e2 : d1.year / 100 % 10 < d2.year / 100 % 10
      · rw [if_pos e2]; constructor
        · intro _; omega
        · intro _; rfl
      · rw [if_neg e2]
        by_cases f2 : d2.year / 100 % 10 < d1.year / 100 % 10
        · rw [if_pos f2]; constructor
          · intro h; cases h
          · intro h; omega
        · rw [if_neg f2]
          by_cases e1 : d1.year / 10 % 10 < d2.year / 10 % 10
          · rw [if_pos e1]; constructor
            · intro _; omega
            · intro _; rfl
          · rw [if_neg e1]
            by_cases f1 : d2.year / 10 % 10 < d1.year / 10 % 10
            · rw [if_pos f1]; constructor
              · intro h; cases h
              · intro h; omega
            · rw [if_neg f1]
              by_cases e0 : d1.year % 10 < d2.year % 10
              · rw [if_pos e0]; constructor
                · intro _; omega
                · intro _; rfl
              · rw [if_neg e0]
                by_cases f0 : d2.year % 10 < d1.year % 10
                · rw [if_pos f0]; constructor
                  · intro h; cases h
                  · intro h; omega
                · rw [if_neg f0, jsStrLtB_same_cons,
                    jsStrLtB_dc_cons _ _ (by omega) (by omega)]
                  by_cases em : (d1.monthIdx + 1) / 10 < (d2.monthIdx + 1) / 10
                  · rw [if_pos em]; constructor
                    · intro _; omega
                    · intro _; rfl
                  · rw [if_neg em]
                    by_cases fm : (d2.monthIdx + 1) / 10 < (d1.monthIdx + 1) / 10
                    · rw [if_pos fm]; constructor
                      · intro h; cases h
                      · intro h; omega
                    · rw [if_neg fm, jsStrLtB_dc_cons _ _ (by omega) (by omega)]
                      by_cases e0m : (d1.monthIdx + 1) % 10 < (d2.monthIdx + 1) % 10
                      · rw [if_pos e0m]; constructor
                        · intro _; omega
                        · intro _; rfl
                      · rw [if_neg e0m]
                        by_cases f0m : (d2.monthIdx + 1) % 10 < (d1.monthIdx + 1) % 10
                        · rw [if_pos f0m]; constructor
                          · intro h; cases h
                          · intro h; omega
                        · rw [if_neg f0m]
                          show (jsStrLtB [] [] = true) ↔ _
                          constructor
                          · intro h; cases h
                          · intro h; omega

/-! ## Order facts about the modelled JS string comparison -/

theorem jsStrLtB_irrefl : ∀ l : List Char, jsStrLtB l l = false := by
  intro l
  induction l with
  | nil => rfl
  | cons a as ih =>
    show (if a < a then true else if a < a then false else jsStrLtB as as) = false
    rw [if_neg (lt_irrefl a), if_neg (lt_irrefl a), ih]

theorem jsStrLtB_asymm : ∀ l1 l2 : List Char,
    jsStrLtB l1 l2 = true → jsStrLtB l2 l1 = false := by
  intro l1
  induction l1 with
  | nil =>
    intro l2 h
    cases l2 with
    | nil => simp [jsStrLtB] at h
    | cons b bs => rfl
  | cons a as ih =>
    intro l2 h
    cases l2 with
    | nil => simp [jsStrLtB] at h
    | cons b bs =>
      rw [show jsStrLtB (a :: as) (b :: bs) =
        (if a < b then true else if b < a then false else jsStrLtB as bs) from rfl] at h
      show (if b < a then true else if a < b then false else jsStrLtB bs as) = false
      by_cases hab : a < b
      · rw [if_neg (asymm hab), if_pos hab]
      · by_cases hba : b < a
        · rw [if_neg hab, if_pos hba] at h
          simp at h
        · rw [if_neg hba, if_neg hab]
          rw [if_neg hab, if_neg hba] at h
          exact ih bs h

theorem jsStrLtB_trans : ∀ l1 l2 l3 : List Char,
    jsStrLtB l1 l2 = true → jsStrLtB l2 l3 = true → jsStrLtB l1 l3 = true := by
  intro l1
  induction l1 with
  | nil =>
    intro l2 l3 h12 h23
    cases l3 with
    | nil =>
      cases l2 with
      | nil => exact h12
      | cons b bs => simp [jsStrLtB] at h23
    | cons c cs => rfl
  | cons a as ih =>
    intro l2 l3 h12 h23
    cases l2 with
    | nil => simp [jsStrLtB] at h12
    | cons b bs =>
      cases l3 with
      | nil => simp [jsStrLtB] at h23
      | cons c cs =>
        rw [show jsStrLtB (a :: as) (b :: bs) =
          (if a < b then true else if b < a then false else jsStrLtB as bs) from rfl] at h12
        rw [show jsStrLtB (b :: bs) (c :: cs) =
          (if b < c then true else if c < b then false else jsStrLtB bs cs) from rfl] at h23
        show (if a < c then true else if c < a then false else jsStrLtB as cs) = true
        by_cases hab : a < b
        · by_cases hbc : b < c
          · rw [if_pos (lt_trans hab hbc)]
          · by_cases hcb : c < b
            · rw [if_neg hbc, if_pos hcb] at h23
              simp at h23
            · have hbc' : b = c := le_antisymm (not_lt.mp hcb) (not_lt.mp hbc)
              rw [if_pos (hbc' ▸ hab)]
        · by_cases hba : b < a
          · rw [if_neg hab, if_pos hba] at h12
            simp at h12
          · have hab' : a = b := le_antisymm (not_lt.mp hba) (not_lt.mp hab)
            rw [if_neg hab, if_neg hba] at h12
            by_cases hbc : b < c
            · rw [if_pos (hab' ▸ hbc : a < c)]
            · by_cases hcb : c < b
              · rw [if_neg hbc, if_pos hcb] at h23
                simp at h23
              · rw [if_neg hbc, if_neg hcb] at h23
                have hac : ¬ a < c := by rw [hab']; exact hbc
                have hca : ¬ c < a := by rw [hab']; exact hcb
                rw [if_neg hac, if_neg hca]
                exact ih bs cs h12 h23

theorem jsStrLtB_connex : ∀ l1 l2 : List Char,
    jsStrLtB l1 l2 = false → jsStrLtB l2 l1 = false → l1 = l2 := by
  intro l1
  induction l1 with
  | nil =>
    intro l2 h12 _
    cases l2 with
    | nil => rfl
    | cons b bs => simp [jsStrLtB] at h12
  | cons a as ih =>
    intro l2 h12 h21
    cases l2 with
    | nil => simp [jsStrLtB] at h21
    | cons b bs =>
      rw [show jsStrLtB (a :: as) (b :: bs) =
        (if a < b then true else if b < a then false else jsStrLtB as bs) from rfl] at h12
      rw [show jsStrLtB (b :: bs) (a :: as) =
        (if b < a then true else if a < b then false else jsStrLtB bs as) from rfl] at h21
      by_cases hab : a < b
      · rw [if_pos hab] at h12
        simp at h12
      · by_cases hba : b < a
        · rw [if_pos hba] at h21
          simp at h21
        · have hab' : a = b := le_antisymm (not_lt.mp hba) (not_lt.mp hab)
          rw [if_neg hab, if_neg hba] at h12
          rw [if_neg hba, if_neg hab] at h21
          rw [hab', ih bs h12 h21]

instance : IsTotal String jsStrLe where
  total s1 s2 := by
    cases h : jsStrLtB s2.data s1.data with
    | false => exact Or.inl h
    | true => exact Or.inr (jsStrLtB_asymm _ _ h)

instance : IsTrans String jsStrLe where
  trans s1 s2 s3 h12 h23 := by
    unfold jsStrLe at *
    cases h : jsStrLtB s3.data s1.data with
    | false => rfl
    | true =>
      exfalso
      cases h2 : jsStrLtB s1.data s2.data with
      | false =>
        have e12 : s1.data = s2.data := jsStrLtB_connex _ _ h2 h12
        rw [e12] at h
        simp [h] at h23
      | true =>
        have h3 := jsStrLtB_trans _ _ _ h h2
        simp [h3] at h23

/-! ## Grouping lemmas -/

theorem lookupG_pushGroup_same (k : String) (c : SignedContract) :
    ∀ gs, lookupG k (pushGroup gs k c) = some ((lookupG k gs).getD [] ++ [c]) := by
  intro gs
  induction gs with
  | nil => simp [pushGroup, lookupG]
  | cons p rest ih =>
    obtain ⟨k', l⟩ := p
    by_cases h : k' = k
    · subst h
      simp [pushGroup, lookupG]
    · simp only [pushGroup, if_neg h, lookupG, ih]

theorem lookupG_pushGroup_other (k1 k : String) (c : SignedContract) (hne : k1 ≠ k) :
    ∀ gs, lookupG k1 (pushGroup gs k c) = lookupG k1 gs := by
  intro gs
  induction gs with
  | nil => simp [pushGroup, lookupG, Ne.symm hne]
  | cons p rest ih =>
    obtain ⟨k', l⟩ := p
    by_cases h : k' = k
    · subst h
      simp [pushGroup, lookupG, Ne.symm hne]
    · simp only [pushGroup, if_neg h, lookupG, ih]

theorem lookupG_eq_none_iff (k : String) :
    ∀ gs, lookupG k gs = none ↔ k ∉ gs.map Prod.fst := by
  intro gs
  induction gs with
  | nil => simp [lookupG]
  | cons p rest ih =>
    obtain ⟨k', l⟩ := p
    by_cases h : k' = k
    · subst h
      simp [lookupG]
    · simp [lookupG, if_neg h, ih, Ne.symm h]

theorem keys_pushGroup (k : String) (c : SignedContract) :
    ∀ gs, (pushGroup gs k c).map Prod.fst =
      if lookupG k gs = none then gs.map Prod.fst ++ [k] else gs.map Prod.fst := by
  intro gs
  induction gs with
  | nil => simp [pushGroup, lookupG]
  | cons p rest ih =>
    obtain ⟨k', l⟩ := p
    by_cases h : k' = k
    · subst h
      simp [pushGroup, lookupG]
    · simp only [pushGroup, if_neg h, List.map_cons, lookupG, ih]
      by_cases hn : lookupG k rest = none
      · simp [hn, h]
      · simp [hn, h]

theorem nodup_keys_pushGroup (k : String) (c : SignedContract) (gs : List (String × List SignedContract))
    (h : (gs.map Prod.fst).Nodup) : ((pushGroup gs k c).map Prod.fst).Nodup := by
  rw [keys_pushGroup]
  by_cases hn : lookupG k gs = none
  · rw [if_pos hn]
    have hk : k ∉ gs.map Prod.fst := (lookupG_eq_none_iff k gs).mp hn
    simp [List.nodup_append, h, hk]
  · rw [if_neg hn]
    exact h

/-- The key predicate a contract matches a group by. -/
def inGroup (getDate : String → LocalDate) (k : String) (c : SignedContract) : Bool :=
  decide (getGroupKey getDate c.signedAt = k)

theorem lookupG_foldl (getDate : String → LocalDate) (k : String) :
    ∀ (cs : List SignedContract) (acc : List (String × List SignedContract)),
    lookupG k (cs.foldl (fun gs c => pushGroup gs (getGroupKey getDate c.signedAt) c) acc) =
      match lookupG k acc with
      | some l => some (l ++ cs.filter (inGroup getDate k))
      | none =>
        if (cs.filter (inGroup getDate k)).isEmpty then none
        else some (cs.filter (inGroup getDate k)) := by
  intro cs
  induction cs with
  | nil =>
    intro acc
    cases h : lookupG k acc <;> simp [h]
  | cons c cs ih =>
    intro acc
    rw [List.foldl_cons, ih]
    by_cases hk : getGroupKey getDate c.signedAt = k
    · rw [hk, lookupG_pushGroup_same k c acc]
      have hf : (c :: cs).filter (inGroup getDate k) = c :: cs.filter (inGroup getDate k) := by
        simp [List.filter_cons, inGroup, hk]
      cases h : lookupG k acc with
      | some l => simp [h, hf]
      | none => simp [h, hf]
    · rw [lookupG_pushGroup_other k (getGroupKey getDate c.signedAt) c (Ne.symm hk) acc]
      have hf : (c :: cs).filter (inGroup getDate k) = cs.filter (inGroup getDate k) := by
        simp [List.filter_cons, inGroup, hk]
      rw [hf]

theorem nodup_keys_foldl (getDate : String → LocalDate) :
    ∀ (cs : List SignedContract) (acc : List (String × List SignedContract)),
    (acc.map Prod.fst).Nodup →
    ((cs.foldl (fun gs c => pushGroup gs (getGroupKey getDate c.signedAt) c) acc).map
      Prod.fst).Nodup := by
  intro cs
  induction cs with
  | nil => intro acc h; exact h
  | cons c cs ih =>
    intro acc h
    rw [List.foldl_cons]
    exact ih _ (nodup_keys_pushGroup _ c acc h)

theorem lookupG_groupedContracts (getDate : String → LocalDate) (k : String)
    (cs : List SignedContract) :
    lookupG k (groupedContracts getDate cs) =
      if (cs.filter (inGroup getDate k)).isEmpty then none
      else some (cs.filter (inGroup getDate k)) := by
  rw [show groupedContracts getDate cs =
    cs.foldl (fun gs c => pushGroup gs (getGroupKey getDate c.signedAt) c) [] from rfl,
    lookupG_foldl getDate k cs []]
  rfl

theorem nodup_groupKeys (getDate : String → LocalDate) (cs : List SignedContract) :
    ((groupedContracts getDate cs).map Prod.fst).Nodup :=
  nodup_keys_foldl getDate cs [] (by simp)

theorem mem_groupKeys_iff (getDate : String → LocalDate) (k : String)
    (cs : List SignedContract) :
    k ∈ (groupedContracts getDate cs).map Prod.fst ↔
      ∃ c ∈ cs, getGroupKey getDate c.signedAt = k := by
  rw [← not_iff_not, ← lookupG_eq_none_iff, lookupG_groupedContracts]
  by_cases h : (cs.filter (inGroup getDate k)).isEmpty
  · rw [if_pos h]
    simp only [List.isEmpty_iff, List.filter_eq_nil_iff, inGroup] at h
    refine iff_of_true rfl ?_
    rintro ⟨c, hc, hk⟩
    exact absurd (decide_eq_true hk) (h c hc)
  · rw [if_neg h]
    have hne : cs.filter (inGroup getDate k) ≠ [] := by
      intro he
      rw [← List.isEmpty_iff] at he
      exact h he
    obtain ⟨c, hc⟩ := List.exists_mem_of_ne_nil _ hne
    rw [List.mem_filter] at hc
    exact iff_of_false (by simp) (fun hno => hno ⟨c, hc.1, of_decide_eq_true hc.2⟩)

theorem string_data_inj {s t : String} (h : s.data = t.data) : s = t := by
  cases s; cases t; exact congrArg String.mk h

theorem sortedGroupKeys_perm (getDate : String → LocalDate) (cs : List SignedContract) :
    List.Perm (sortedGroupKeys getDate cs) ((groupedContracts getDate cs).map Prod.fst) :=
  (List.reverse_perm _).trans (List.perm_insertionSort jsStrLe _)

theorem mem_sortedGroupKeys_iff (getDate : String → LocalDate) (k : String)
    (cs : List SignedContract) :
    k ∈ sortedGroupKeys getDate cs ↔ ∃ c ∈ cs, getGroupKey getDate c.signedAt = k := by
  rw [(sortedGroupKeys_perm getDate cs).mem_iff, mem_groupKeys_iff]

theorem nodup_sortedGroupKeys (getDate : String → LocalDate) (cs : List SignedContract) :
    (sortedGroupKeys getDate cs).Nodup :=
  List.nodup_reverse.mpr
    ((List.perm_insertionSort jsStrLe _).symm.nodup (nodup_groupKeys getDate cs))

theorem pairwise_sortedGroupKeys (getDate : String → LocalDate) (cs : List SignedContract) :
    (sortedGroupKeys getDate cs).Pairwise
      (fun k1 k2 => jsStrLtB k2.data k1.data = true) := by
  have hs : (List.insertionSort jsStrLe
      ((groupedContracts getDate cs).map Prod.fst)).Sorted jsStrLe :=
    List.sorted_insertionSort jsStrLe _
  have hrev : (sortedGroupKeys getDate cs).Pairwise (fun k1 k2 => jsStrLe k2 k1) := by
    rw [sortedGroupKeys, List.pairwise_reverse]
    exact hs
  have hcomb := hrev.and (nodup_sortedGroupKeys getDate cs)
  refine hcomb.imp ?_
  intro a b hab
  obtain ⟨hle, hne⟩ := hab
  cases hlt : jsStrLtB b.data a.data with
  | true => rfl
  | false =>
    exact absurd (string_data_inj (jsStrLtB_connex _ _ hlt hle)).symm hne

/-! ## ASCII lemmas for the synthesis step -/

theorem isAsciiText_append (s t : String) :
    isAsciiText (s ++ t) = (isAsciiText s && isAsciiText t) := by
  unfold isAsciiText
  rw [data_append, List.all_append]

theorem sanitizeForPdf_ascii (text fallback : String)
    (h : isAsciiText fallback = true) :
    isAsciiText (sanitizeForPdf text fallback) = true := by
  unfold sanitizeForPdf
  by_cases ht : isAsciiText text
  · rw [if_pos ht]; exact ht
  · rw [if_neg ht]; exact h

theorem sanitizeForPdf_of_not (text fallback : String)
    (h : isAsciiText text = false) : sanitizeForPdf text fallback = fallback := by
  unfold sanitizeForPdf
  rw [h]
  rfl

theorem sanitizeForPdf_of_ascii (text fallback : String)
    (h : isAsciiText text = true) : sanitizeForPdf text fallback = text := by
  unfold sanitizeForPdf
  rw [h]
  rfl

theorem toNat_ofNat_valid (n : Nat) (h : n < 55296) : (Char.ofNat n).toNat = n := by
  have hv : n.isValidChar := Or.inl h
  rw [Char.ofNat, dif_pos hv]
  rfl

theorem toUpper_ascii {c : Char} (h : c.toNat ≤ 127) : (Char.toUpper c).toNat ≤ 127 := by
  show (if c.toNat ≥ 97 ∧ c.toNat ≤ 122 then Char.ofNat (c.toNat - 32) else c).toNat ≤ 127
  by_cases hc : c.toNat ≥ 97 ∧ c.toNat ≤ 122
  · rw [if_pos hc, toNat_ofNat_valid _ (by omega)]
    omega
  · rw [if_neg hc]
    exact h

theorem jsToUpper_ascii (s : String) (h : isAsciiText s = true) :
    isAsciiText (jsToUpper s) = true := by
  unfold isAsciiText at *
  rw [show (jsToUpper s).data = s.data.map Char.toUpper from rfl, List.all_map]
  rw [List.all_eq_true] at h ⊢
  intro c hc
  exact decide_eq_true (toUpper_ascii (of_decide_eq_true (h c hc)))

set_option maxRecDepth 8192 in
theorem bodyTextOf_ascii (signer : SignerInfo)
    (hp : isAsciiText signer.phone = true) (he : isAsciiText signer.email = true)
    (hd : isAsciiText signer.dob = true) :
    isAsciiText (bodyTextOf signer) = true := by
  unfold bodyTextOf
  simp only [isAsciiText_append, hp, he, hd,
    sanitizeForPdf_ascii signer.name "Member" (by decide),
    sanitizeForPdf_ascii signer.address "[Address on File]" (by decide),
    Bool.and_true, Bool.true_and]
  decide

/-- The interpolated body is not ASCII as soon as one of the three
fields it carries verbatim (phone, email, dob) is not. -/
theorem bodyTextOf_not_ascii (signer : SignerInfo)
    (h : isAsciiText signer.phone = false ∨ isAsciiText signer.email = false ∨
      isAsciiText signer.dob = false) :
    isAsciiText (bodyTextOf signer) = false := by
  unfold bodyTextOf
  simp only [isAsciiText_append]
  rcases h with h | h | h <;> simp [h]

/-- The three text elements every successful synthesis draws before the
signature block: sanitized title, date line, interpolated body. -/
def basePageOf (dateStr : String) (template : ContractTemplate) (signer : SignerInfo) :
    List PdfItem :=
  [.text (jsToUpper (sanitizeForPdf template.name "Electronic Contract Agreement")),
   .text ("Date: " ++ dateStr),
   .text (bodyTextOf signer)]

/-- What the signature step contributes: the embedded image when the
payload extracts, decodes and embeds; the fallback marker text
otherwise. -/
def signaturePdfItem (atob : String → Option (List Nat))
    (embedPng : List Nat → Option (List Nat)) (signatureDataUrl : String) : PdfItem :=
  match (jsSplitComma signatureDataUrl).get? 1 with
  | none => .text sigMarker
  | some base64Data =>
    match atob base64Data with
    | none => .text sigMarker
    | some bytes =>
      match embedPng bytes with
      | none => .text sigMarker
      | some img => .image img

/-- Does the signature payload fail to extract, decode, or embed? -/
def sigFails (atob : String → Option (List Nat))
    (embedPng : List Nat → Option (List Nat)) (signatureDataUrl : String) : Bool :=
  match (jsSplitComma signatureDataUrl).get? 1 with
  | none => true
  | some base64Data =>
    match atob base64Data with
    | none => true
    | some bytes => (embedPng bytes).isNone

theorem drawText_ok (page : List PdfItem) (s : String) (h : isAsciiText s = true) :
    drawText page s = .ok (page ++ [.text s]) := by
  unfold drawText
  rw [h]
  rfl

theorem drawText_err (page : List PdfItem) (s : String) (h : isAsciiText s = false) :
    drawText page s = .error "WinAnsiEncode" := by
  unfold drawText
  rw [h]
  rfl

/-- Structure of every synthesis run whose date line and unsanitized
signer fields (phone, email, dob) are ASCII: it succeeds and draws the
base page, followed, when a signature payload was supplied, by the
signature step contribution and the signing line. -/
theorem generateContractPDF_ok (dateStr : String) (atob : String → Option (List Nat))
    (embedPng : List Nat → Option (List Nat)) (template : ContractTemplate)
    (signer : SignerInfo) (signatureDataUrl : String)
    (hp : isAsciiText signer.phone = true) (he : isAsciiText signer.email = true)
    (hd : isAsciiText signer.dob = true) (hdate : isAsciiText dateStr = true) :
    generateContractPDF dateStr atob embedPng template signer signatureDataUrl =
      .ok (basePageOf dateStr template signer ++
        (if signatureDataUrl = "" then []
         else [signaturePdfItem atob embedPng signatureDataUrl, .text "Signed By:",
               .text (sanitizeForPdf signer.name "Member")])) := by
  have hT : isAsciiText (jsToUpper (sanitizeForPdf template.name
      "Electronic Contract Agreement")) = true :=
    jsToUpper_ascii _ (sanitizeForPdf_ascii _ _ (by decide))
  have hD : isAsciiText ("Date: " ++ dateStr) = true := by
    rw [isAsciiText_append, hdate]
    decide
  have hB : isAsciiText (bodyTextOf signer) = true := bodyTextOf_ascii signer hp he hd
  have hName : isAsciiText (sanitizeForPdf signer.name "Member") = true :=
    sanitizeForPdf_ascii _ _ (by decide)
  unfold generateContractPDF
  dsimp only
  rw [drawText_ok [] _ hT]
  simp only [bind, Except.bind]
  rw [drawText_ok _ _ hD]
  simp only [bind, Except.bind]
  rw [drawText_ok _ _ hB]
  simp only [bind, Except.bind]
  by_cases hs : signatureDataUrl = ""
  · simp [hs, pure, Except.pure, basePageOf]
  · rw [if_pos hs]
    rcases h1 : (jsSplitComma signatureDataUrl).get? 1 with _ | b64
    · dsimp only
      rw [drawText_ok _ _ (by decide)]
      simp only [bind, Except.bind]
      rw [drawText_ok _ _ (by decide)]
      simp only [bind, Except.bind]
      rw [drawText_ok _ _ hName]
      have hitem : signaturePdfItem atob embedPng signatureDataUrl = .text sigMarker := by
        simp only [signaturePdfItem, h1]
      rw [hitem]
      simp [pure, Except.pure, basePageOf, hs]
    · rcases h2 : atob b64 with _ | bytes
      · dsimp only
        rw [h2]
        rw [drawText_ok _ _ (by decide)]
        simp only [bind, Except.bind]
        rw [drawText_ok _ _ (by decide)]
        simp only [bind, Except.bind]
        rw [drawText_ok _ _ hName]
        have hitem : signaturePdfItem atob embedPng signatureDataUrl = .text sigMarker := by
          simp only [signaturePdfItem, h1, h2]
        rw [hitem]
        simp [pure, Except.pure, basePageOf, hs]
      · rcases h3 : embedPng bytes with _ | img
        · dsimp only
          rw [h2]
          dsimp only
          rw [h3]
          dsimp only
          rw [drawText_ok _ _ (by decide)]
          simp only [bind, Except.bind]
          rw [drawText_ok _ _ (by decide)]
          simp only [bind, Except.bind]
          rw [drawText_ok _ _ hName]
          have hitem : signaturePdfItem atob embedPng signatureDataUrl = .text sigMarker := by
            simp only [signaturePdfItem, h1, h2, h3]
          rw [hitem]
          simp [pure, Except.pure, basePageOf, hs]
        · dsimp only
          rw [h2]
          dsimp only
          rw [h3]
          dsimp only
          rw [drawText_ok _ _ (by decide)]
          simp only [bind, Except.bind]
          rw [drawText_ok _ _ hName]
          have hitem : signaturePdfItem atob embedPng signatureDataUrl = .image img := by
            simp only [signaturePdfItem, h1, h2, h3]
          rw [hitem]
          simp [pure, Except.pure, basePageOf, hs]

/-- Structure of every synthesis run whose date line is ASCII but whose
interpolated body is not (some unsanitized field carries an unsupported
character): the body draw throws and synthesis aborts with the
encoding error. -/
theorem generateContractPDF_error (dateStr : String) (atob : String → Option (List Nat))
    (embedPng : List Nat → Option (List Nat)) (template : ContractTemplate)
    (signer : SignerInfo) (signatureDataUrl : String)
    (hdate : isAsciiText dateStr = true)
    (hbody : isAsciiText (bodyTextOf signer) = false) :
    generateContractPDF dateStr atob embedPng template signer signatureDataUrl =
      .error "WinAnsiEncode" := by
  have hT : isAsciiText (jsToUpper (sanitizeForPdf template.name
      "Electronic Contract Agreement")) = true :=
    jsToUpper_ascii _ (sanitizeForPdf_ascii _ _ (by decide))
  have hD : isAsciiText ("Date: " ++ dateStr) = true := by
    rw [isAsciiText_append, hdate]
    decide
  unfold generateContractPDF
  dsimp only
  rw [drawText_ok [] _ hT]
  simp only [bind, Except.bind]
  rw [drawText_ok _ _ hD]
  simp only [bind, Except.bind]
  rw [drawText_err _ _ hbody]

/-! ## Substring lemmas for the modelled includes -/

theorem subList_nil (l : List Char) : subList [] l = true := by
  cases l <;> simp [subList, strStarts, List.isEmpty]

theorem strStarts_append_self (l r : List Char) : strStarts l (l ++ r) = true := by
  induction l with
  | nil => rfl
  | cons a as ih => simp [strStarts, ih]

theorem subList_append_self (l r : List Char) : subList l (l ++ r) = true := by
  cases l with
  | nil => exact subList_nil r
  | cons a as =>
    show (strStarts (a :: as) ((a :: as) ++ r) || _) = true
    rw [strStarts_append_self]
    rfl

theorem subList_cons_of (l r : List Char) (c : Char) (h : subList l r = true) :
    subList l (c :: r) = true := by
  show (strStarts l (c :: r) || subList l r) = true
  rw [h, Bool.or_true]

theorem subList_append_left (l r p : List Char) (h : subList l r = true) :
    subList l (p ++ r) = true := by
  induction p with
  | nil => exact h
  | cons c p ih => exact subList_cons_of _ _ c ih

theorem signaturePdfItem_cases (atob : String → Option (List Nat))
    (embedPng : List Nat → Option (List Nat)) (sigUrl : String) :
    (sigFails atob embedPng sigUrl = true ∧
      signaturePdfItem atob embedPng sigUrl = .text sigMarker) ∨
    (sigFails atob embedPng sigUrl = false ∧
      ∃ img, signaturePdfItem atob embedPng sigUrl = .image img) := by
  unfold sigFails signaturePdfItem
  rcases h1 : (jsSplitComma sigUrl).get? 1 with _ | b64 <;> simp only [h1]
  · left; simp
  · rcases h2 : atob b64 with _ | bytes <;> simp only [h2]
    · left; simp
    · rcases h3 : embedPng bytes with _ | img <;> simp only [h3]
      · left; simp
      · right; simp

theorem subList_append_middle (l p r : List Char) : subList l (p ++ (l ++ r)) = true :=
  subList_append_left _ _ p (subList_append_self l r)

/-! ## Claim theorems -/

set_option maxRecDepth 8192 in
/-- Claim C1, counterexample: a signer whose phone field contains
characters outside the basic-Latin repertoire (fullwidth digits), with
every other rendered field ASCII, makes synthesis throw: no fallback is
substituted for the phone field, contradicting the claim that the
fallback appears and that synthesis does not throw for this reason
alone. -/
theorem c1_sanitization_counterexample :
    generateContractPDF "12/25/2024" (fun _ => none) (fun _ => none)
      { id := "tpl_9", name := "Gym Membership", type := .MEMBERSHIP, createdAt := "" }
      { name := "Hong Gildong", phone := "０１０-1234-5678", email := "hong@x.com",
        address := "Seoul", dob := "1990-01-01" }
      "" = .error "WinAnsiEncode" := by rfl

set_option maxRecDepth 8192 in
/-- Claim C1, amended: sanitization runs on the title, the signer name
and the address before drawing, each field independently: whenever the
unsanitized fields (phone, email, dob) and the date line are ASCII,
synthesis succeeds, any of the three sanitized fields that is not
basic-Latin has its fixed fallback in the output in its place, and
every drawn text is ASCII, so a non-Latin original appears nowhere;
whenever phone, email or dob carries a character outside the
repertoire, synthesis throws instead of substituting a fallback. -/
theorem c1_sanitization_amended (dateStr : String) (atob : String → Option (List Nat))
    (embedPng : List Nat → Option (List Nat)) (template : ContractTemplate)
    (signer : SignerInfo) (sigUrl : String)
    (hdate : isAsciiText dateStr = true) :
    (isAsciiText signer.phone = true → isAsciiText signer.email = true →
      isAsciiText signer.dob = true →
      ∃ page, generateContractPDF dateStr atob embedPng template signer sigUrl = .ok page ∧
        PdfItem.text (bodyTextOf signer) ∈ page ∧
        (isAsciiText template.name = false →
          PdfItem.text (jsToUpper "Electronic Contract Agreement") ∈ page) ∧
        (isAsciiText signer.name = false →
          sanitizeForPdf signer.name "Member" = "Member" ∧
          subList "Member".data (bodyTextOf signer).data = true) ∧
        (isAsciiText signer.address = false →
          sanitizeForPdf signer.address "[Address on File]" = "[Address on File]" ∧
          subList "[Address on File]".data (bodyTextOf signer).data = true) ∧
        (∀ s, PdfItem.text s ∈ page → isAsciiText s = true)) ∧
    ((isAsciiText signer.phone = false ∨ isAsciiText signer.email = false ∨
        isAsciiText signer.dob = false) →
      generateContractPDF dateStr atob embedPng template signer sigUrl =
        .error "WinAnsiEncode") := by
  constructor
  · intro hp he hd
    have hT : isAsciiText (jsToUpper (sanitizeForPdf template.name
        "Electronic Contract Agreement")) = true :=
      jsToUpper_ascii _ (sanitizeForPdf_ascii _ _ (by decide))
    have hD : isAsciiText ("Date: " ++ dateStr) = true := by
      rw [isAsciiText_append, hdate]
      decide
    have hB : isAsciiText (bodyTextOf signer) = true := bodyTextOf_ascii signer hp he hd
    have hName : isAsciiText (sanitizeForPdf signer.name "Member") = true :=
      sanitizeForPdf_ascii _ _ (by decide)
    refine ⟨_, generateContractPDF_ok dateStr atob embedPng template signer sigUrl hp he hd
      hdate, ?_, ?_, ?_, ?_, ?_⟩
    · rw [basePageOf]
      exact List.mem_append_left _ (List.Mem.tail _ (List.Mem.tail _ (List.Mem.head _)))
    · intro htitle
      rw [← sanitizeForPdf_of_not template.name "Electronic Contract Agreement" htitle,
        basePageOf]
      exact List.mem_append_left _ (List.Mem.head _)
    · intro hname
      refine ⟨sanitizeForPdf_of_not _ _ hname, ?_⟩
      rw [bodyTextOf, sanitizeForPdf_of_not _ _ hname]
      simp only [data_append, List.append_assoc]
      exact subList_append_middle _ _ _
    · intro haddr
      refine ⟨sanitizeForPdf_of_not _ _ haddr, ?_⟩
      rw [bodyTextOf, sanitizeForPdf_of_not _ _ haddr]
      simp only [data_append, List.append_assoc]
      iterate 9 apply subList_append_left
      exact subList_append_self _ _
    · intro s hs
      rw [List.mem_append] at hs
      rcases hs with hs | hs
      · simp only [basePageOf, List.mem_cons, List.mem_singleton] at hs
        rcases hs with hs | hs | hs | hs
        · cases hs; exact hT
        · cases hs; exact hD
        · cases hs; exact hB
        · cases hs
      · by_cases hsu : sigUrl = ""
        · rw [if_pos hsu] at hs
          cases hs
        · rw [if_neg hsu] at hs
          rcases signaturePdfItem_cases atob embedPng sigUrl with ⟨_, hitem⟩ | ⟨_, img, hitem⟩ <;>
            rw [hitem] at hs <;>
            simp only [List.mem_cons, List.mem_singleton] at hs
          · rcases hs with hs | hs | hs | hs
            · cases hs; decide
            · cases hs; decide
            · cases hs; exact hName
            · cases hs
          · rcases hs with hs | hs | hs | hs
            · cases hs
            · cases hs; decide
            · cases hs; exact hName
            · cases hs
  · intro hbad
    exact generateContractPDF_error dateStr atob embedPng template signer sigUrl hdate
      (bodyTextOf_not_ascii signer hbad)

set_option maxRecDepth 8192 in
/-- Claim C1, witness: the amended theorem applied to the mixed
scenario of the specification — Korean template title, ASCII signer
fields — where the title alone is substituted, and to a signer whose
phone carries fullwidth digits, where synthesis throws. -/
theorem c1_sanitization_witness :
    (∃ page,
      generateContractPDF "12/25/2024" (fun _ => none) (fun _ => none)
        { id := "tpl_1", name := "가입신청서", type := .MEMBERSHIP, createdAt := "" }
        { name := "Hong Gildong", phone := "010-1234-5678", email := "hong@x.com",
          address := "Seoul", dob := "1990-01-01" } "" = .ok page ∧
      PdfItem.text (bodyTextOf
        { name := "Hong Gildong", phone := "010-1234-5678", email := "hong@x.com",
          address := "Seoul", dob := "1990-01-01" }) ∈ page ∧
      (isAsciiText "가입신청서" = false →
        PdfItem.text (jsToUpper "Electronic Contract Agreement") ∈ page) ∧
      (isAsciiText "Hong Gildong" = false →
        sanitizeForPdf "Hong Gildong" "Member" = "Member" ∧
        subList "Member".data (bodyTextOf
          { name := "Hong Gildong", phone := "010-1234-5678", email := "hong@x.com",
            address := "Seoul", dob := "1990-01-01" }).data = true) ∧
      (isAsciiText "Seoul" = false →
        sanitizeForPdf "Seoul" "[Address on File]" = "[Address on File]" ∧
        subList "[Address on File]".data (bodyTextOf
          { name := "Hong Gildong", phone := "010-1234-5678", email := "hong@x.com",
            address := "Seoul", dob := "1990-01-01" }).data = true) ∧
      (∀ s, PdfItem.text s ∈ page → isAsciiText s = true)) ∧
    generateContractPDF "12/25/2024" (fun _ => none) (fun _ => none)
      { id := "tpl_1", name := "가입신청서", type := .MEMBERSHIP, createdAt := "" }
      { name := "Hong Gildong", phone := "０１０-1234-5678", email := "hong@x.com",
        address := "Seoul", dob := "1990-01-01" } "" = .error "WinAnsiEncode" :=
  ⟨(c1_sanitization_amended "12/25/2024" (fun _ => none) (fun _ => none)
      { id := "tpl_1", name := "가입신청서", type := .MEMBERSHIP, createdAt := "" }
      { name := "Hong Gildong", phone := "010-1234-5678", email := "hong@x.com",
        address := "Seoul", dob := "1990-01-01" } "" (by decide)).1
    (by decide) (by decide) (by decide),
   (c1_sanitization_amended "12/25/2024" (fun _ => none) (fun _ => none)
      { id := "tpl_1", name := "가입신청서", type := .MEMBERSHIP, createdAt := "" }
      { name := "Hong Gildong", phone := "０１０-1234-5678", email := "hong@x.com",
        address := "Seoul", dob := "1990-01-01" } "" (by decide)).2
    (Or.inl (by decide))⟩

/-- Claim C3 (confirmed): whenever the rest of the page is drawable
(phone, email, dob and the date line ASCII) and a signature payload was
supplied, synthesis succeeds and yields a complete page that contains
either an embedded image or the visible fallback marker; in particular
whenever the payload fails to extract, decode, or embed, the marker is
drawn at the signature position and synthesis still returns a complete
document rather than aborting. -/
theorem c3_signature_fallback (dateStr : String) (atob : String → Option (List Nat))
    (embedPng : List Nat → Option (List Nat)) (template : ContractTemplate)
    (signer : SignerInfo) (sigUrl : String)
    (hp : isAsciiText signer.phone = true) (he : isAsciiText signer.email = true)
    (hd : isAsciiText signer.dob = true) (hdate : isAsciiText dateStr = true)
    (hsig : sigUrl ≠ "") :
    ∃ page, generateContractPDF dateStr atob embedPng template signer sigUrl = .ok page ∧
      ((∃ img, PdfItem.image img ∈ page) ∨ PdfItem.text sigMarker ∈ page) ∧
      (sigFails atob embedPng sigUrl = true → PdfItem.text sigMarker ∈ page) := by
  refine ⟨_, generateContractPDF_ok dateStr atob embedPng template signer sigUrl hp he hd hdate,
    ?_, ?_⟩
  · rcases signaturePdfItem_cases atob embedPng sigUrl with ⟨_, hitem⟩ | ⟨_, img, hitem⟩
    · right
      rw [if_neg hsig, ← hitem]
      exact List.mem_append_right _ (List.Mem.head _)
    · exact Or.inl ⟨img, by
        rw [if_neg hsig, ← hitem]
        exact List.mem_append_right _ (List.Mem.head _)⟩
  · intro hfail
    rcases signaturePdfItem_cases atob embedPng sigUrl with ⟨_, hitem⟩ | ⟨hf, img, hitem⟩
    · rw [if_neg hsig, ← hitem]
      exact List.mem_append_right _ (List.Mem.head _)
    · rw [hf] at hfail
      cases hfail

set_option maxRecDepth 8192 in
/-- Claim C3, witness: a concrete signature payload whose decode step
fails; the marker is in the output page of a successful synthesis. -/
theorem c3_signature_fallback_witness :
    ∃ page, generateContractPDF "12/25/2024" (fun _ => none) (fun _ => none)
      { id := "tpl_1", name := "Gym Membership", type := .MEMBERSHIP, createdAt := "" }
      { name := "Hong Gildong", phone := "010-1234-5678", email := "hong@x.com",
        address := "Seoul", dob := "1990-01-01" }
      "data:image/png;base64,iVBORw0KGgo=" = .ok page ∧
      ((∃ img, PdfItem.image img ∈ page) ∨ PdfItem.text sigMarker ∈ page) ∧
      (sigFails (fun _ => none) (fun _ => none) "data:image/png;base64,iVBORw0KGgo=" = true →
        PdfItem.text sigMarker ∈ page) :=
  c3_signature_fallback "12/25/2024" (fun _ => none) (fun _ => none) _ _
    "data:image/png;base64,iVBORw0KGgo="
    (by decide) (by decide) (by decide) (by decide) (by decide)

/-- The search predicate as the specification states it: the query is a
case-insensitive substring of the signer name or of the template name,
or a raw substring of the phone. -/
def matchesSearch (query : String) (c : SignedContract) : Bool :=
  jsIncludes (jsToLower c.signerName) (jsToLower query)
    || jsIncludes (jsToLower c.templateName) (jsToLower query)
    || jsIncludes c.signerPhone query

/-- Claim C7 (confirmed): searchContracts filters the stored collection
by exactly the specified predicate, preserving order, and the empty
query returns the full stored collection unchanged. -/
theorem c7_searchContracts (query : String) (st : Storage) :
    searchContracts query st = (getSignedContracts st).filter (matchesSearch query) ∧
    searchContracts "" st = getSignedContracts st := by
  constructor
  · unfold searchContracts
    apply List.filter_congr
    intro c _
    unfold matchesSearch
    cases jsIncludes (jsToLower c.signerName) (jsToLower query) <;>
      cases jsIncludes c.signerPhone query <;>
      cases jsIncludes (jsToLower c.templateName) (jsToLower query) <;> rfl
  · unfold searchContracts
    rw [List.filter_eq_self]
    intro c _
    show (jsIncludes (jsToLower c.signerName) (jsToLower "") || _ || _) = true
    rw [show jsToLower "" = "" from rfl,
      show jsIncludes (jsToLower c.signerName) "" = true from subList_nil _,
      Bool.true_or, Bool.true_or]

/-- Claim C4 (confirmed): saveSignedContract with a succeeding local
write builds the record as the input draft plus a fresh identifier and
initial status SENT, prepends it, persists it into the storage it
returns, and returns that same record; reading the contract collection
back from the updated storage yields the new record first, followed by
the previous collection unchanged. -/
theorem c4_addContract_roundtrip (now : Nat) (draft : ContractDraft)
    (remote : RemoteOutcome) (st : Storage) :
    ∃ saved,
      (saveSignedContract now draft false remote st).1 = .ok saved ∧
      saved = { templateId := draft.templateId, templateName := draft.templateName,
                signerName := draft.signerName, signerPhone := draft.signerPhone,
                signerEmail := draft.signerEmail, signedAt := draft.signedAt,
                pdfDataUrl := draft.pdfDataUrl,
                id := "cnt_" ++ Nat.repr now, status := .SENT } ∧
      getSignedContracts (saveSignedContract now draft false remote st).2.1 =
        saved :: getSignedContracts st := by
  refine ⟨_, rfl, rfl, ?_⟩
  rfl

/-- Claim C5 (confirmed): in every saveSignedContract run, a remote
attempt only ever happens after the local save has already completed
successfully (it is the first recorded event); the returned value and
the stored state are identical whatever the remote outcome is (ok,
non-ok response, or network failure), and when the local write succeeds
the call returns the new record with the local collection prepended —
so no remote outcome rolls back, removes, or reorders local records or
prevents the successful return. -/
theorem c5_remote_never_affects_local (now : Nat) (draft : ContractDraft)
    (failSave : Bool) (remote remote' : RemoteOutcome) (st : Storage) :
    (∀ r, SaveEvent.remoteAttempt r ∈ (saveSignedContract now draft failSave remote st).2.2 →
      (saveSignedContract now draft failSave remote st).2.2.head? =
        some (SaveEvent.localSave true)) ∧
    (saveSignedContract now draft failSave remote st).1 =
      (saveSignedContract now draft failSave remote' st).1 ∧
    (saveSignedContract now draft failSave remote st).2.1 =
      (saveSignedContract now draft failSave remote' st).2.1 ∧
    (∃ saved, (saveSignedContract now draft false remote st).1 = .ok saved ∧
      getSignedContracts (saveSignedContract now draft false remote st).2.1 =
        saved :: getSignedContracts st) := by
  refine ⟨?_, ?_, ?_, ⟨_, rfl, rfl⟩⟩
  · intro r hr
    cases failSave with
    | false => rfl
    | true =>
      simp only [saveSignedContract, if_pos] at hr
      simp at hr
  · cases failSave <;> rfl
  · cases failSave <;> rfl

/-- Claim C5, witness: a concrete run against an unreachable endpoint
still records the successful local save as the first event before the
remote attempt. -/
theorem c5_remote_never_affects_local_witness :
    (saveSignedContract 42
      { templateId := "tpl_001", templateName := "T", signerName := "Hong",
        signerPhone := "010", signerEmail := "h@x.com", signedAt := "2024-05-01",
        pdfDataUrl := "data:application/pdf;base64,AAA" }
      false RemoteOutcome.networkError ⟨none, none⟩).2.2.head? =
        some (SaveEvent.localSave true) :=
  (c5_remote_never_affects_local 42
    { templateId := "tpl_001", templateName := "T", signerName := "Hong",
      signerPhone := "010", signerEmail := "h@x.com", signedAt := "2024-05-01",
      pdfDataUrl := "data:application/pdf;base64,AAA" }
    false RemoteOutcome.networkError RemoteOutcome.ok ⟨none, none⟩).1
    RemoteOutcome.networkError (by decide)

/-- Claim C6 (confirmed): when the first template write fails, the
retry persists the new record with its source-document reference
removed but every other field kept, still reporting success with the
new template; when the retry fails too, uploadTemplate surfaces the
error to the caller instead of returning success, and the new template
is not in the persisted collection. -/
theorem c6_quota_fallback (isoAt : Nat → String) (loadTime now : Nat)
    (draft : TemplateDraft) (st : Storage) :
    (∃ saved rest,
      (uploadTemplate isoAt loadTime now draft true false st).1 = .ok saved ∧
      (uploadTemplate isoAt loadTime now draft true false st).2.templates =
        some ({ saved with basePdfUrl := none } :: rest) ∧
      rest = (getTemplates isoAt loadTime st).1) ∧
    (uploadTemplate isoAt loadTime now draft true true st).1 = .error () ∧
    (uploadTemplate isoAt loadTime now draft true true st).2.templates =
      (getTemplates isoAt loadTime st).2.templates := by
  refine ⟨⟨_, _, rfl, ?_, rfl⟩, ?_, ?_⟩
  · rfl
  · rfl
  · rfl

/-- Claim C10 (confirmed): on the quota-fallback path the value
returned to the caller keeps its source-document reference while the
record persisted at the head of the collection is that value with the
reference removed, so the two differ; on the normal path the persisted
head is exactly the returned value. -/
theorem c10_fallback_return_divergence (isoAt : Nat → String) (loadTime now : Nat)
    (name : String) (ty : TemplateType) (fs : Option String) (pc : Option Nat)
    (url : String) (st : Storage) :
    (∃ saved rest,
      (uploadTemplate isoAt loadTime now
        { name := name, type := ty, basePdfUrl := some url,
          fileSize := fs, pageCount := pc } true false st).1 = .ok saved ∧
      saved.basePdfUrl = some url ∧
      (uploadTemplate isoAt loadTime now
        { name := name, type := ty, basePdfUrl := some url,
          fileSize := fs, pageCount := pc } true false st).2.templates =
        some ({ saved with basePdfUrl := none } :: rest) ∧
      saved ≠ { saved with basePdfUrl := none }) ∧
    (∃ saved rest,
      (uploadTemplate isoAt loadTime now
        { name := name, type := ty, basePdfUrl := some url,
          fileSize := fs, pageCount := pc } false false st).1 = .ok saved ∧
      (uploadTemplate isoAt loadTime now
        { name := name, type := ty, basePdfUrl := some url,
          fileSize := fs, pageCount := pc } false false st).2.templates =
        some (saved :: rest)) := by
  constructor
  · refine ⟨_, _, rfl, rfl, rfl, ?_⟩
    intro h
    have := congrArg ContractTemplate.basePdfUrl h
    simp [newTemplateOf] at this
  · exact ⟨_, _, rfl, rfl⟩

/-- Does a contract carry a document payload the archive can include:
a non-empty data URL with a non-empty base64 component after the
comma? -/
def hasDocPayload (c : SignedContract) : Bool :=
  decide (c.pdfDataUrl ≠ "") &&
    (match (jsSplitComma c.pdfDataUrl).get? 1 with
     | some base64Data => decide (base64Data ≠ "")
     | none => false)

theorem zipEntryOf_isSome (c : SignedContract) :
    (zipEntryOf c).isSome = hasDocPayload c := by
  unfold zipEntryOf hasDocPayload
  by_cases h1 : c.pdfDataUrl = ""
  · simp [h1]
  · rcases h2 : (jsSplitComma c.pdfDataUrl).get? 1 with _ | b64
    · simp [h1, h2]
    · by_cases h3 : b64 = "" <;> simp [h1, h2, h3]

theorem length_zipEntries (cs : List SignedContract) :
    (cs.filterMap zipEntryOf).length = cs.countP hasDocPayload := by
  induction cs with
  | nil => rfl
  | cons c cs ih =>
    rw [List.filterMap_cons, List.countP_cons]
    have hcp := zipEntryOf_isSome c
    cases hc : zipEntryOf c with
    | none =>
      rw [hc] at hcp
      simp only [Option.isSome_none] at hcp
      simp [← hcp, ih]
    | some e =>
      rw [hc] at hcp
      simp only [Option.isSome_some] at hcp
      simp [← hcp, ih]

/-- Claim C9 (confirmed): exporting the tabular file over an empty
collection and bundling an archive over contracts that all lack a
document payload both report the nothing-to-export condition instead of
producing a file; contracts lacking a payload are silently skipped, so
a produced archive counts exactly the contracts with an extractable
payload and that count is positive. -/
theorem c9_nothing_to_export (fmtDateTime : String → String) (groupKey : String) :
    handleExportCSV fmtDateTime [] = .error () ∧
    (∀ cs : List SignedContract, (∀ c ∈ cs, hasDocPayload c = false) →
      handleDownloadZip groupKey cs = .error ()) ∧
    (∀ cs : List SignedContract, ∀ folder entries,
      handleDownloadZip groupKey cs = .ok (folder, entries) →
      entries.length = cs.countP hasDocPayload ∧ entries.length ≠ 0) := by
  refine ⟨rfl, ?_, ?_⟩
  · intro cs h
    have he : cs.filterMap zipEntryOf = [] := by
      rw [List.filterMap_eq_nil_iff]
      intro c hc
      have := zipEntryOf_isSome c
      rw [h c hc] at this
      cases hz : zipEntryOf c with
      | none => rfl
      | some e => rw [hz] at this; simp at this
    unfold handleDownloadZip
    rw [he]
    rfl
  · intro cs folder entries h
    unfold handleDownloadZip at h
    by_cases hlen : (cs.filterMap zipEntryOf).length = 0
    · rw [if_pos hlen] at h
      cases h
    · rw [if_neg hlen] at h
      injection h with h
      injection h with h1 h2
      subst h2
      exact ⟨length_zipEntries cs, hlen⟩

/-- Claim C9, witness: a contract without payload produces the
nothing-to-export error; a contract with payload produces an archive
whose entry count is the payload count and is positive. -/
theorem c9_nothing_to_export_witness :
    handleDownloadZip "2024-05"
      [{ id := "cnt_1", templateId := "tpl_001", templateName := "T",
         signerName := "Hong", signerPhone := "010", signerEmail := "h@x.com",
         signedAt := "2024-05-01", pdfDataUrl := "", status := .SENT }] = .error () ∧
    ([("Hong_T_5678.pdf", "AAA")].length =
      [{ id := "cnt_12345678", templateId := "tpl_001", templateName := "T",
         signerName := "Hong", signerPhone := "010", signerEmail := "h@x.com",
         signedAt := "2024-05-01", pdfDataUrl := "data:application/pdf;base64,AAA",
         status := ContractStatus.SENT }].countP hasDocPayload ∧
      [("Hong_T_5678.pdf", "AAA")].length ≠ 0) :=
  ⟨(c9_nothing_to_export (fun s => s) "2024-05").2.1
      [{ id := "cnt_1", templateId := "tpl_001", templateName := "T",
         signerName := "Hong", signerPhone := "010", signerEmail := "h@x.com",
         signedAt := "2024-05-01", pdfDataUrl := "", status := .SENT }] (by decide),
   (c9_nothing_to_export (fun s => s) "2024-05").2.2
      [{ id := "cnt_12345678", templateId := "tpl_001", templateName := "T",
         signerName := "Hong", signerPhone := "010", signerEmail := "h@x.com",
         signedAt := "2024-05-01", pdfDataUrl := "data:application/pdf;base64,AAA",
         status := ContractStatus.SENT }]
      "Contracts_2024-05" [("Hong_T_5678.pdf", "AAA")] (by rfl)⟩

/-! ## Identifier uniqueness machinery -/

theorem tplId_inj {t u : Nat} (h : "tpl_" ++ Nat.repr t = "tpl_" ++ Nat.repr u) : t = u := by
  have hd := congrArg String.data h
  rw [data_append, data_append] at hd
  have := List.append_cancel_left hd
  exact repr_injective (string_data_inj this)

theorem cntId_inj {t u : Nat} (h : "cnt_" ++ Nat.repr t = "cnt_" ++ Nat.repr u) : t = u := by
  have hd := congrArg String.data h
  rw [data_append, data_append] at hd
  have := List.append_cancel_left hd
  exact repr_injective (string_data_inj this)

def defaultTplIds : List String := ["tpl_001", "tpl_002", "tpl_003"]

theorem digitChar_ne_zero : ∀ d : Nat, 1 ≤ d → d ≤ 9 → Nat.digitChar d ≠ '0' := by decide

theorem tplId_not_default (t : Nat) : "tpl_" ++ Nat.repr t ∉ defaultTplIds := by
  intro hmem
  rcases Nat.eq_zero_or_pos t with h0 | h1
  · subst h0
    simp only [defaultTplIds, List.mem_cons, List.not_mem_nil, or_false] at hmem
    rcases hmem with h | h | h <;> exact absurd (congrArg String.data h) (by decide)
  · obtain ⟨d, hd1, hd9, hhead⟩ := toDigits_head t h1
    have hdata : ("tpl_" ++ Nat.repr t).data = ['t', 'p', 'l', '_'] ++ Nat.toDigits 10 t := by
      rw [data_append, repr_data]
    have hne := digitChar_ne_zero d hd1 hd9
    simp only [defaultTplIds, List.mem_cons, List.not_mem_nil, or_false] at hmem
    rcases hmem with h | h | h <;>
    · have hd' := congrArg String.data h
      rw [hdata] at hd'
      have : (Nat.toDigits 10 t).head? = some '0' := by
        rcases hh : Nat.toDigits 10 t with _ | ⟨a, rest⟩
        · exact absurd hh (toDigits_ne_nil t)
        · rw [hh] at hd'
          simp at hd'
          simp [hh, hd'.1]
      rw [hhead] at this
      exact hne (Option.some.inj this)

theorem tpl_ne_cnt (s : String)
    (h : s ∈ defaultTplIds ∨ ∃ t : Nat, s = "tpl_" ++ Nat.repr t) (u : Nat) :
    s ≠ "cnt_" ++ Nat.repr u := by
  intro he
  have hhead : s.data.head? = some 'c' := by
    rw [he, data_append]
    rfl
  rcases h with h | ⟨t, ht⟩
  · simp only [defaultTplIds, List.mem_cons, List.not_mem_nil, or_false] at h
    rcases h with h | h | h <;> rw [h] at hhead <;> exact absurd hhead (by decide)
  · rw [ht] at hhead
    have hd : ("tpl_" ++ Nat.repr t).data =
        't' :: 'p' :: 'l' :: '_' :: (Nat.repr t).data := by
      rw [data_append]
      rfl
    rw [hd] at hhead
    simp at hhead

/-- One add operation of the store, tagged with its Date.now() reading;
the failure flags and remote outcome are as in uploadTemplate and
saveSignedContract. -/
inductive AddOp where
  | tpl (now : Nat) (draft : TemplateDraft) (fail1 fail2 : Bool)
  | cnt (now : Nat) (draft : ContractDraft) (failSave : Bool) (remote : RemoteOutcome)
deriving DecidableEq, Repr

def AddOp.now : AddOp → Nat
  | .tpl n _ _ _ => n
  | .cnt n _ _ _ => n

/-- The storage after one add operation (the returned value is
dropped). -/
def applyOp (isoAt : Nat → String) (loadTime : Nat) (st : Storage) : AddOp → Storage
  | .tpl n draft f1 f2 => (uploadTemplate isoAt loadTime n draft f1 f2 st).2
  | .cnt n draft fs r => (saveSignedContract n draft fs r st).2.1

/-- The storage after a sequence of add operations. -/
def runOps (isoAt : Nat → String) (loadTime : Nat) (st : Storage) (ops : List AddOp) :
    Storage :=
  ops.foldl (applyOp isoAt loadTime) st

def storedTplIds (st : Storage) : List String := (st.templates.getD []).map (·.id)

def storedCntIds (st : Storage) : List String := (st.contracts.getD []).map (·.id)

/-- The identifier invariant at clock bound b: both id lists are
duplicate-free, template ids are seeded defaults or tpl ids minted
before b, and contract ids are cnt ids minted before b. -/
def IdInv (st : Storage) (b : Nat) : Prop :=
  (storedTplIds st).Nodup ∧ (storedCntIds st).Nodup ∧
  (∀ id ∈ storedTplIds st, id ∈ defaultTplIds ∨ ∃ t < b, id = "tpl_" ++ Nat.repr t) ∧
  (∀ id ∈ storedCntIds st, ∃ t < b, id = "cnt_" ++ Nat.repr t)

theorem IdInv.mono {st : Storage} {b b' : Nat} (h : IdInv st b) (hb : b ≤ b') :
    IdInv st b' := by
  obtain ⟨h1, h2, h3, h4⟩ := h
  refine ⟨h1, h2, ?_, ?_⟩
  · intro id hid
    rcases h3 id hid with h | ⟨t, ht, he⟩
    · exact Or.inl h
    · exact Or.inr ⟨t, by omega, he⟩
  · intro id hid
    obtain ⟨t, ht, he⟩ := h4 id hid
    exact ⟨t, by omega, he⟩

theorem IdInv.prepend_tpl {st : Storage} {b n : Nat} (h : IdInv st b) (hb : b ≤ n)
    {current : List ContractTemplate}
    (hcur : current.map (·.id) = defaultTplIds ∨ current.map (·.id) = storedTplIds st)
    {tpl : ContractTemplate} (hid : tpl.id = "tpl_" ++ Nat.repr n) :
    IdInv { templates := some (tpl :: current), contracts := st.contracts } (n + 1) := by
  obtain ⟨h1, h2, h3, h4⟩ := h
  have hnd : (current.map (·.id)).Nodup := by
    rcases hcur with hc | hc
    · rw [hc]; decide
    · rw [hc]; exact h1
  have hmem : ∀ id ∈ current.map (·.id),
      id ∈ defaultTplIds ∨ ∃ t < b, id = "tpl_" ++ Nat.repr t := by
    rcases hcur with hc | hc
    · rw [hc]; exact fun id hid' => Or.inl hid'
    · rw [hc]; exact h3
  have hnew : tpl.id ∉ current.map (·.id) := by
    intro hmem'
    rcases hmem _ hmem' with hd | ⟨t, ht, he⟩
    · rw [hid] at hd
      exact tplId_not_default n hd
    · rw [hid] at he
      have := tplId_inj he
      omega
  refine ⟨?_, h2, ?_, ?_⟩
  · show ((tpl :: current).map (·.id)).Nodup
    rw [List.map_cons, List.nodup_cons]
    exact ⟨hnew, hnd⟩
  · intro id hid'
    have hid'' : id ∈ (tpl :: current).map (·.id) := hid'
    rw [List.map_cons, List.mem_cons] at hid''
    rcases hid'' with he | hm
    · exact Or.inr ⟨n, by omega, he.trans hid⟩
    · rcases hmem _ hm with hd | ⟨t, ht, he⟩
      · exact Or.inl hd
      · exact Or.inr ⟨t, by omega, he⟩
  · intro id hid'
    obtain ⟨t, ht, he⟩ := h4 id hid'
    exact ⟨t, by omega, he⟩

theorem IdInv.prepend_cnt {st : Storage} {b n : Nat} (h : IdInv st b) (hb : b ≤ n)
    {c : SignedContract} (hid : c.id = "cnt_" ++ Nat.repr n) :
    IdInv { templates := st.templates,
            contracts := some (c :: st.contracts.getD []) } (n + 1) := by
  obtain ⟨h1, h2, h3, h4⟩ := h
  have hnew : c.id ∉ storedCntIds st := by
    intro hmem'
    obtain ⟨t, ht, he⟩ := h4 _ hmem'
    rw [hid] at he
    have := cntId_inj he
    omega
  refine ⟨h1, ?_, ?_, ?_⟩
  · show ((c :: st.contracts.getD []).map (·.id)).Nodup
    rw [List.map_cons, List.nodup_cons]
    exact ⟨hnew, h2⟩
  · intro id hid'
    rcases h3 id hid' with hd | ⟨t, ht, he⟩
    · exact Or.inl hd
    · exact Or.inr ⟨t, by omega, he⟩
  · intro id hid'
    have hid'' : id ∈ (c :: st.contracts.getD []).map (·.id) := hid'
    rw [List.map_cons, List.mem_cons] at hid''
    rcases hid'' with he | hm
    · exact ⟨n, by omega, he.trans hid⟩
    · obtain ⟨t, ht, he⟩ := h4 _ hm
      exact ⟨t, by omega, he⟩

theorem applyOp_IdInv (isoAt : Nat → String) (loadTime : Nat) {st : Storage} {b : Nat}
    (h : IdInv st b) (op : AddOp) (hop : b ≤ op.now) :
    IdInv (applyOp isoAt loadTime st op) (op.now + 1) := by
  cases op with
  | tpl n draft f1 f2 =>
    have hop' : b ≤ n := hop
    show IdInv (uploadTemplate isoAt loadTime n draft f1 f2 st).2 (n + 1)
    rcases hst : st.templates with _ | l
    · have hids : (DEFAULT_TEMPLATES isoAt loadTime).map (·.id) = defaultTplIds := rfl
      have hinv1 : IdInv
          { templates := some (DEFAULT_TEMPLATES isoAt loadTime),
            contracts := st.contracts } b := by
        obtain ⟨_, h2, _, h4⟩ := h
        refine ⟨?_, h2, ?_, h4⟩
        · show ((DEFAULT_TEMPLATES isoAt loadTime).map (·.id)).Nodup
          rw [hids]
          decide
        · intro id hid
          refine Or.inl ?_
          have hm : id ∈ (DEFAULT_TEMPLATES isoAt loadTime).map (·.id) := hid
          rwa [hids] at hm
      cases f1 with
      | false =>
        have hstate : (uploadTemplate isoAt loadTime n draft false f2 st).2 =
            { templates := some (newTemplateOf isoAt n draft ::
                DEFAULT_TEMPLATES isoAt loadTime),
              contracts := st.contracts } := by
          simp [uploadTemplate, getTemplates, hst]
        rw [hstate]
        exact hinv1.prepend_tpl hop' (Or.inl hids) rfl
      | true =>
        cases f2 with
        | false =>
          have hstate : (uploadTemplate isoAt loadTime n draft true false st).2 =
              { templates := some ({ newTemplateOf isoAt n draft with basePdfUrl := none } ::
                  DEFAULT_TEMPLATES isoAt loadTime),
                contracts := st.contracts } := by
            simp [uploadTemplate, getTemplates, hst]
          rw [hstate]
          exact hinv1.prepend_tpl hop' (Or.inl hids) rfl
        | true =>
          have hstate : (uploadTemplate isoAt loadTime n draft true true st).2 =
              { templates := some (DEFAULT_TEMPLATES isoAt loadTime),
                contracts := st.contracts } := by
            simp [uploadTemplate, getTemplates, hst]
          rw [hstate]
          exact hinv1.mono (by omega)
    · have hcur : l.map (·.id) = storedTplIds st := by
        simp [storedTplIds, hst]
      cases f1 with
      | false =>
        have hstate : (uploadTemplate isoAt loadTime n draft false f2 st).2 =
            { templates := some (newTemplateOf isoAt n draft :: l),
              contracts := st.contracts } := by
          simp [uploadTemplate, getTemplates, hst]
        rw [hstate]
        exact h.prepend_tpl hop' (Or.inr hcur) rfl
      | true =>
        cases f2 with
        | false =>
          have hstate : (uploadTemplate isoAt loadTime n draft true false st).2 =
              { templates := some ({ newTemplateOf isoAt n draft with basePdfUrl := none } :: l),
                contracts := st.contracts } := by
            simp [uploadTemplate, getTemplates, hst]
          rw [hstate]
          exact h.prepend_tpl hop' (Or.inr hcur) rfl
        | true =>
          have hstate : (uploadTemplate isoAt loadTime n draft true true st).2 = st := by
            simp [uploadTemplate, getTemplates, hst]
          rw [hstate]
          exact h.mono (by omega)
  | cnt n draft fs r =>
    have hop' : b ≤ n := hop
    show IdInv (saveSignedContract n draft fs r st).2.1 (n + 1)
    cases fs with
    | true =>
      have hstate : (saveSignedContract n draft true r st).2.1 = st := rfl
      rw [hstate]
      exact h.mono (by omega)
    | false =>
      have hgc : getSignedContracts st = st.contracts.getD [] := by
        cases hc : st.contracts <;> simp [getSignedContracts, hc]
      have hstate : (saveSignedContract n draft false r st).2.1 =
          { templates := st.templates,
            contracts := some (newContractOf n draft :: st.contracts.getD []) } := by
        rw [← hgc]
        rfl
      rw [hstate]
      exact h.prepend_cnt hop' rfl

theorem runOps_IdInv (isoAt : Nat → String) (loadTime : Nat) :
    ∀ (ops : List AddOp) (st : Storage) (b : Nat), IdInv st b →
    (∀ op ∈ ops, b ≤ op.now) → ops.Pairwise (fun o1 o2 => o1.now < o2.now) →
    ∃ b', IdInv (runOps isoAt loadTime st ops) b' := by
  intro ops
  induction ops with
  | nil =>
    intro st b h _ _
    exact ⟨b, h⟩
  | cons op rest ih =>
    intro st b h hb hp
    rw [List.pairwise_cons] at hp
    have hstep := applyOp_IdInv isoAt loadTime h op (hb op (List.mem_cons_self op rest))
    exact ih (applyOp isoAt loadTime st op) (op.now + 1) hstep
      (fun o ho => by have := hp.1 o ho; omega) hp.2

/-- Claim C2 (confirmed): along any sequence of template and contract
adds started from the empty storage whose Date.now() readings strictly
increase (the awaited delays of the source enforce this for the
sequential, single-operator runs the design assumes), the final storage
has duplicate-free template identifiers (including the seeded
defaults), duplicate-free contract identifiers, and no identifier
shared between the two collections — so every add assigned an
identifier distinct from all those already present. -/
theorem c2_id_uniqueness (isoAt : Nat → String) (loadTime : Nat) (ops : List AddOp)
    (hinc : ops.Pairwise (fun o1 o2 => o1.now < o2.now)) :
    (storedTplIds (runOps isoAt loadTime ⟨none, none⟩ ops)).Nodup ∧
    (storedCntIds (runOps isoAt loadTime ⟨none, none⟩ ops)).Nodup ∧
    ∀ id ∈ storedTplIds (runOps isoAt loadTime ⟨none, none⟩ ops),
      id ∉ storedCntIds (runOps isoAt loadTime ⟨none, none⟩ ops) := by
  have h0 : IdInv ⟨none, none⟩ 0 := by
    refine ⟨?_, ?_, ?_, ?_⟩ <;> simp [storedTplIds, storedCntIds, IdInv]
  obtain ⟨b', h1, h2, h3, h4⟩ := runOps_IdInv isoAt loadTime ops ⟨none, none⟩ 0 h0
    (fun op _ => Nat.zero_le _) hinc
  refine ⟨h1, h2, ?_⟩
  intro id hidT hidC
  obtain ⟨t, _, he⟩ := h4 id hidC
  rcases h3 id hidT with hd | ⟨u, _, hu⟩
  · exact tpl_ne_cnt id (Or.inl hd) t he
  · exact tpl_ne_cnt id (Or.inr ⟨u, hu⟩) t he

/-- A concrete strictly-clocked trace: two template uploads (one on the
quota-fallback path) around a contract save. -/
def c2ExampleOps : List AddOp :=
  [AddOp.tpl 100 { name := "Waiver", type := .WAIVER } false false,
   AddOp.cnt 200
     { templateId := "tpl_100", templateName := "Waiver", signerName := "Hong",
       signerPhone := "010", signerEmail := "h@x.com", signedAt := "2024-05-01",
       pdfDataUrl := "" }
     false .ok,
   AddOp.tpl 300
     { name := "Lesson", type := .PT_AGREEMENT,
       basePdfUrl := some "data:application/pdf;base64,AAA" }
     true false]

/-- Claim C2, witness: the uniqueness theorem applied to the concrete
trace. -/
theorem c2_id_uniqueness_witness :
    (storedTplIds (runOps (fun _ => "2024-05-01T00:00:00.000Z") 50 ⟨none, none⟩
      c2ExampleOps)).Nodup ∧
    (storedCntIds (runOps (fun _ => "2024-05-01T00:00:00.000Z") 50 ⟨none, none⟩
      c2ExampleOps)).Nodup ∧
    ∀ id ∈ storedTplIds (runOps (fun _ => "2024-05-01T00:00:00.000Z") 50 ⟨none, none⟩
      c2ExampleOps),
      id ∉ storedCntIds (runOps (fun _ => "2024-05-01T00:00:00.000Z") 50 ⟨none, none⟩
      c2ExampleOps) :=
  c2_id_uniqueness (fun _ => "2024-05-01T00:00:00.000Z") 50 c2ExampleOps (by decide)

/-- The chronological order on local year-month periods. -/
def periodLt (d1 d2 : LocalDate) : Prop :=
  d1.year < d2.year ∨ (d1.year = d2.year ∧ d1.monthIdx < d2.monthIdx)

/-- Claim C8 (confirmed): the dashboard grouping partitions contracts
by the YYYY-MM key of their signing timestamp's local display date —
the keys presented are exactly the keys of the contracts, each group
holds exactly its own contracts in collection order — and, for
four-digit years, the groups are presented newest period first. -/
theorem c8_grouping (getDate : String → LocalDate) (cs : List SignedContract)
    (hb : ∀ c ∈ cs, 1000 ≤ (getDate c.signedAt).year ∧ (getDate c.signedAt).year ≤ 9999 ∧
      (getDate c.signedAt).monthIdx ≤ 11) :
    (∀ k, k ∈ sortedGroupKeys getDate cs ↔ ∃ c ∈ cs, getGroupKey getDate c.signedAt = k) ∧
    (∀ k, k ∈ sortedGroupKeys getDate cs →
      lookupG k (groupedContracts getDate cs) = some (cs.filter (inGroup getDate k))) ∧
    (sortedGroupKeys getDate cs).Pairwise (fun k1 k2 =>
      ∀ c1 ∈ cs, ∀ c2 ∈ cs, getGroupKey getDate c1.signedAt = k1 →
        getGroupKey getDate c2.signedAt = k2 →
        periodLt (getDate c2.signedAt) (getDate c1.signedAt)) := by
  refine ⟨fun k => mem_sortedGroupKeys_iff getDate k cs, ?_, ?_⟩
  · intro k hk
    rw [lookupG_groupedContracts]
    obtain ⟨c, hc, hkey⟩ := (mem_sortedGroupKeys_iff getDate k cs).mp hk
    have hcf : c ∈ cs.filter (inGroup getDate k) := by
      rw [List.mem_filter]
      exact ⟨hc, decide_eq_true hkey⟩
    rw [if_neg]
    intro he
    rw [List.isEmpty_iff] at he
    rw [he] at hcf
    cases hcf
  · refine (pairwise_sortedGroupKeys getDate cs).imp ?_
    intro k1 k2 hlt c1 hc1 c2 hc2 e1 e2
    obtain ⟨hy1, hy2, hm1⟩ := hb c1 hc1
    obtain ⟨hy1', hy2', hm2⟩ := hb c2 hc2
    have hkey1 : groupKeyOfDate (getDate c1.signedAt) = k1 := e1
    have hkey2 : groupKeyOfDate (getDate c2.signedAt) = k2 := e2
    rw [← hkey1, ← hkey2] at hlt
    exact (jsStrLtB_key_iff (getDate c2.signedAt) (getDate c1.signedAt)
      hy1' hy2' hm2 hy1 hy2 hm1).mp hlt

/-- The display dates of the three timestamps of the concrete grouping
scenario: two contracts signed in May 2024, one in June 2024. -/
def c8ExampleDate (s : String) : LocalDate :=
  if s = "2024-06-15T10:00:00" then { year := 2024, monthIdx := 5 }
  else { year := 2024, monthIdx := 4 }

/-- The three contracts of the concrete grouping scenario. -/
def c8ExampleContracts : List SignedContract :=
  [{ id := "cnt_1", templateId := "tpl_001", templateName := "T", signerName := "A",
     signerPhone := "010", signerEmail := "a@x.com", signedAt := "2024-05-03T10:00:00",
     pdfDataUrl := "", status := .SENT },
   { id := "cnt_2", templateId := "tpl_001", templateName := "T", signerName := "B",
     signerPhone := "010", signerEmail := "b@x.com", signedAt := "2024-05-20T10:00:00",
     pdfDataUrl := "", status := .SENT },
   { id := "cnt_3", templateId := "tpl_001", templateName := "T", signerName := "C",
     signerPhone := "010", signerEmail := "c@x.com", signedAt := "2024-06-15T10:00:00",
     pdfDataUrl := "", status := .SENT }]

/-- Claim C8, witness: on the concrete scenario the keys come out as
2024-06 then 2024-05, each group holding exactly its own contracts, and
the grouping theorem applies. -/
theorem c8_grouping_witness :
    sortedGroupKeys c8ExampleDate c8ExampleContracts = ["2024-06", "2024-05"] ∧
    lookupG "2024-05" (groupedContracts c8ExampleDate c8ExampleContracts) =
      some [c8ExampleContracts.get ⟨0, by decide⟩, c8ExampleContracts.get ⟨1, by decide⟩] ∧
    lookupG "2024-06" (groupedContracts c8ExampleDate c8ExampleContracts) =
      some [c8ExampleContracts.get ⟨2, by decide⟩] ∧
    (sortedGroupKeys c8ExampleDate c8ExampleContracts).Pairwise (fun k1 k2 =>
      ∀ c1 ∈ c8ExampleContracts, ∀ c2 ∈ c8ExampleContracts,
        getGroupKey c8ExampleDate c1.signedAt = k1 →
        getGroupKey c8ExampleDate c2.signedAt = k2 →
        periodLt (c8ExampleDate c2.signedAt) (c8ExampleDate c1.signedAt)) :=
  ⟨by decide, by decide, by decide,
   (c8_grouping c8ExampleDate c8ExampleContracts (by decide)).2.2⟩
